import Mathlib

/-!
Verification development for the Dayflow capture-to-insight pipeline.

Shallow embedding of the core components:
* `core/types.py`      — data model (chunks, batches, observations, cards);
* `core/analysis.py`   — the analysis scheduler (batching, per-batch processing);
* `core/llm_provider.py` — backend client and defensive JSON response parsing;
* `database/connection_pool.py` — bounded connection pool;
* `database/storage.py` — persistence layer (card save / query round trip);
* `core/recorder.py`   — capture loop finalisation semantics.

Conventions: Python floats are modelled as rationals (the operations the
claims exercise are additions and comparisons, never rounding-sensitive);
machine time is passed in explicitly; fallible Python code is modelled in
`Except`; JSON values are a dedicated inductive type and `json.loads` is
modelled by an executable fuel-based JSON reader defined below.
-/

namespace Dayflow

/-! ## Data model (`core/types.py`) -/

/-- Naive `datetime.datetime` (timezone-aware values are outside the model:
no claim exercises them). -/
structure DateTime where
  year : Nat
  month : Nat
  day : Nat
  hour : Nat
  minute : Nat
  second : Nat
  microsecond : Nat
deriving DecidableEq, Repr

/-- Field ranges of a real `datetime` value (Python enforces these at
construction; `day ≤ 31` is the coarse bound, month lengths do not matter
for any claim). -/
def DateTime.Valid (d : DateTime) : Prop :=
  1 ≤ d.year ∧ d.year ≤ 9999 ∧ 1 ≤ d.month ∧ d.month ≤ 12 ∧
  1 ≤ d.day ∧ d.day ≤ 31 ∧ d.hour ≤ 23 ∧ d.minute ≤ 59 ∧
  d.second ≤ 59 ∧ d.microsecond ≤ 999999

instance (d : DateTime) : Decidable d.Valid := by
  unfold DateTime.Valid; infer_instance

/-- `ChunkStatus` enum. -/
inductive ChunkStatus where
  | pending
  | processing
  | completed
  | failed
deriving DecidableEq, Repr

/-- `BatchStatus` enum. -/
inductive BatchStatus where
  | pending
  | processing
  | completed
  | failed
deriving DecidableEq, Repr

/-- `VideoChunk` dataclass. -/
structure VideoChunk where
  id : Option Nat := none
  file_path : String := ""
  start_time : Option DateTime := none
  end_time : Option DateTime := none
  duration_seconds : ℚ := 0
  status : ChunkStatus := ChunkStatus.pending
  batch_id : Option Nat := none
deriving DecidableEq, Repr

/-! ## Greedy batching (`core/analysis.py`, `_create_batches`)

The Python loop carries `(batches, current_batch, batch_duration)`; the
fold below carries the same three pieces of state.  `max_duration` is the
cap in seconds (`self.batch_duration * 60` at the call site). -/

/-- One iteration of the `for chunk in chunks` loop body of
`_create_batches`. -/
def createBatchesStep (maxDuration : ℚ)
    (st : List (List VideoChunk) × List VideoChunk × ℚ) (chunk : VideoChunk) :
    List (List VideoChunk) × List VideoChunk × ℚ :=
  let (batches, currentBatch, batchDuration) := st
  if batchDuration + chunk.duration_seconds > maxDuration ∧ currentBatch ≠ [] then
    (batches ++ [currentBatch], [chunk], chunk.duration_seconds)
  else
    (batches, currentBatch ++ [chunk], batchDuration + chunk.duration_seconds)

/-- `_create_batches` with the duration cap already in seconds. -/
def createBatchesAux (maxDuration : ℚ) (chunks : List VideoChunk) :
    List (List VideoChunk) :=
  if chunks = [] then []
  else
    let (batches, currentBatch, _) :=
      chunks.foldl (createBatchesStep maxDuration) ([], [], 0)
    if currentBatch ≠ [] then batches ++ [currentBatch] else batches

/-- `_create_batches` as called by the scheduler: the configured cap is
`batch_duration` minutes, converted to seconds. -/
def createBatches (batchDurationMinutes : ℚ) (chunks : List VideoChunk) :
    List (List VideoChunk) :=
  createBatchesAux (batchDurationMinutes * 60) chunks

/-- Sum of the durations of a list of chunks. -/
def sumDurations (b : List VideoChunk) : ℚ :=
  (b.map VideoChunk.duration_seconds).sum

/-- A produced batch is well-formed for cap `cap`: either its summed
duration is at most the cap, or it is one lone chunk whose duration alone
exceeds the cap. -/
def GoodBatch (cap : ℚ) (b : List VideoChunk) : Prop :=
  sumDurations b ≤ cap ∨ ∃ c, b = [c] ∧ c.duration_seconds > cap

/-- Invariant carried by the `_create_batches` fold state: every closed
batch is well-formed, the running total matches the open batch, and the
open batch is empty, within the cap, or a single chunk. -/
def BatchFoldInv (cap : ℚ)
    (st : List (List VideoChunk) × List VideoChunk × ℚ) : Prop :=
  (∀ b ∈ st.1, GoodBatch cap b) ∧
  st.2.2 = sumDurations st.2.1 ∧
  (st.2.1 = [] ∨ sumDurations st.2.1 ≤ cap ∨ ∃ c, st.2.1 = [c])

/-- Concrete 50-second segments for the bin-packing example. -/
def c2seg1 : VideoChunk := { id := some 1, duration_seconds := 50 }

def c2seg2 : VideoChunk := { id := some 2, duration_seconds := 50 }

def c2seg3 : VideoChunk := { id := some 3, duration_seconds := 50 }

/-! ## Connection pool (`database/connection_pool.py`)

Connections are identified by a numeric id; wall-clock time is passed in
explicitly as a rational number of seconds.  The blocking retry loop of
`acquire` polls every 0.1 s, so it is modelled with one unit of fuel per
0.1 s tick; concurrent activity between polls is an arbitrary state
transformer supplied by the caller. -/

/-- `PooledConnection` wrapper. -/
structure PooledConnection where
  connId : Nat
  createdAt : ℚ
  lastUsed : ℚ
  inUse : Bool
deriving DecidableEq, Repr

/-- `mark_used`. -/
def PooledConnection.markUsed (now : ℚ) (c : PooledConnection) : PooledConnection :=
  { c with lastUsed := now, inUse := true }

/-- `mark_released`. -/
def PooledConnection.markReleased (now : ℚ) (c : PooledConnection) : PooledConnection :=
  { c with lastUsed := now, inUse := false }

/-- `is_idle_timeout`. -/
def PooledConnection.isIdleTimeout (idleTimeout now : ℚ) (c : PooledConnection) : Bool :=
  if c.inUse then false else decide (now - c.lastUsed > idleTimeout)

/-- Pool construction parameters. `timeoutTicks` is the acquire timeout
divided by the 0.1 s retry sleep. -/
structure PoolConfig where
  maxSize : Nat := 5
  timeoutTicks : Nat := 300
  idleTimeout : ℚ := 300

/-- Mutable state of `ConnectionPool`: the `_pool` list, the `_closed`
flag, and a counter supplying fresh connection ids. -/
structure PoolState where
  pool : List PooledConnection := []
  closed : Bool := false
  nextId : Nat := 0
deriving Repr

/-- The freshly initialised pool. -/
def PoolState.init : PoolState := {}

/-- Number of in-use connections (the `in_use` property). -/
def PoolState.countInUse (s : PoolState) : Nat :=
  (s.pool.filter (·.inUse)).length

/-- Number of idle connections (the `available` property). -/
def PoolState.countIdle (s : PoolState) : Nat :=
  (s.pool.filter (fun c => !c.inUse)).length

/-- The `for pooled_conn in self._pool` scan of `acquire`: mark the first
idle connection used and return it. -/
def reuseFirstIdle (now : ℚ) : List PooledConnection →
    Option (List PooledConnection × Nat)
  | [] => none
  | c :: rest =>
    if c.inUse then
      match reuseFirstIdle now rest with
      | some (rest2, i) => some (c :: rest2, i)
      | none => none
    else
      some (c.markUsed now :: rest, c.connId)

/-- One lock-held attempt of `acquire`: reuse an idle connection, else
create a new one if the pool is below `max_size`, else fail (the caller
will sleep and retry). -/
def tryAcquireAttempt (cfg : PoolConfig) (now : ℚ) (s : PoolState) :
    Option (PoolState × Nat) :=
  match reuseFirstIdle now s.pool with
  | some (pool2, i) => some ({ s with pool := pool2 }, i)
  | none =>
    if s.pool.length < cfg.maxSize then
      some ({ s with
                pool := s.pool ++
                  [{ connId := s.nextId, createdAt := now, lastUsed := now,
                     inUse := true }],
                nextId := s.nextId + 1 }, s.nextId)
    else
      none

/-- Failure modes of `acquire`: the `RuntimeError` on a closed pool and
`PoolExhaustedError` on timeout. -/
inductive AcquireError where
  | poolClosed
  | poolExhausted
deriving DecidableEq, Repr

/-- The `while True` retry loop of `acquire`.  `interfere t` is whatever
other threads do to the pool while this caller sleeps after failed
attempt `t`; the attempt at tick `t` sees the clock advanced by `t` tenths
of a second. -/
def acquireLoop (cfg : PoolConfig) (interfere : Nat → PoolState → PoolState)
    (now : ℚ) : Nat → Nat → PoolState → Except AcquireError (PoolState × Nat)
  | tick, 0, s =>
    match tryAcquireAttempt cfg (now + tick / 10) s with
    | some r => .ok r
    | none => .error .poolExhausted
  | tick, fuel + 1, s =>
    match tryAcquireAttempt cfg (now + tick / 10) s with
    | some r => .ok r
    | none => acquireLoop cfg interfere now (tick + 1) fuel (interfere tick s)

/-- `acquire`. -/
def acquire (cfg : PoolConfig) (interfere : Nat → PoolState → PoolState)
    (now : ℚ) (s : PoolState) : Except AcquireError (PoolState × Nat) :=
  if s.closed then .error .poolClosed
  else acquireLoop cfg interfere now 0 cfg.timeoutTicks s

/-- The scan of `release`: mark the matching pooled connection released;
a connection not in the pool is closed and the pool is left unchanged. -/
def releaseIn (now : ℚ) (cid : Nat) : List PooledConnection → List PooledConnection
  | [] => []
  | c :: rest =>
    if c.connId = cid then c.markReleased now :: rest
    else c :: releaseIn now cid rest

/-- `release`. -/
def PoolState.release (now : ℚ) (cid : Nat) (s : PoolState) : PoolState :=
  { s with pool := releaseIn now cid s.pool }

/-- `_cleanup_idle`.  `ok cid` says whether the `close()` call on that
connection succeeded; on failure the connection is not removed (the
`remove` sits after `close` inside the `try`). -/
def cleanupIdle (cfg : PoolConfig) (now : ℚ) (ok : Nat → Bool) (s : PoolState) :
    PoolState :=
  if s.closed then s
  else { s with
           pool := s.pool.filter
             (fun c => !(c.isIdleTimeout cfg.idleTimeout now && ok c.connId)) }

/-- `close_all`: set `_closed`, checkpoint and close every connection,
clear the pool. -/
def PoolState.closeAll (s : PoolState) : PoolState :=
  { s with closed := true, pool := [] }

/-- The lock-held state mutations a pool can undergo, for stating the
invariant over arbitrary interleavings.  A blocked `acquire` mutates
nothing until an attempt succeeds, so `acquireOp` is the single locked
attempt. -/
inductive PoolOp where
  | acquireOp (now : ℚ)
  | releaseOp (now : ℚ) (cid : Nat)
  | cleanupOp (now : ℚ) (ok : Nat → Bool)
  | closeAllOp

/-- Apply one pool operation. -/
def applyPoolOp (cfg : PoolConfig) (s : PoolState) : PoolOp → PoolState
  | .acquireOp now =>
    if s.closed then s
    else
      match tryAcquireAttempt cfg now s with
      | some (s2, _) => s2
      | none => s
  | .releaseOp now cid => s.release now cid
  | .cleanupOp now ok => cleanupIdle cfg now ok s
  | .closeAllOp => s.closeAll

/-- Run a sequence of pool operations. -/
def runPoolOps (cfg : PoolConfig) (s : PoolState) (ops : List PoolOp) : PoolState :=
  ops.foldl (applyPoolOp cfg) s

/-- A pool in which every connection is busy and the size cap is reached:
the situation in which `acquire` blocks. -/
def PoolState.Saturated (cfg : PoolConfig) (s : PoolState) : Prop :=
  (∀ c ∈ s.pool, c.inUse = true) ∧ cfg.maxSize ≤ s.pool.length

/-! ## Calendar arithmetic for `datetime` values

Epoch conversion (proleptic Gregorian, via the standard days-from-civil /
civil-from-days algorithms) gives `datetime` subtraction and
`timedelta` addition.  All intermediate divisions act on non-negative
integers. -/

/-- Days from 1970-01-01 of a civil date. -/
def daysFromCivil (y m d : Int) : Int :=
  let y2 := if m ≤ 2 then y - 1 else y
  let era := (if 0 ≤ y2 then y2 else y2 - 399) / 400
  let yoe := y2 - era * 400
  let doy := (153 * (m + (if 2 < m then -3 else 9)) + 2) / 5 + d - 1
  let doe := yoe * 365 + yoe / 4 - yoe / 100 + doy
  era * 146097 + doe - 719468

/-- Civil date from days since 1970-01-01. -/
def civilFromDays (z0 : Int) : Int × Int × Int :=
  let z := z0 + 719468
  let era := (if 0 ≤ z then z else z - 146096) / 146097
  let doe := z - era * 146097
  let yoe := (doe - doe / 1460 + doe / 2920 - doe / 146096) / 365
  let y := yoe + era * 400
  let doy := doe - (365 * yoe + yoe / 4 - yoe / 100)
  let mp := (5 * doy + 2) / 153
  let d := doy - (153 * mp + 2) / 5 + 1
  let m := mp + if mp < 10 then 3 else -9
  (y + (if m ≤ 2 then 1 else 0), m, d)

/-- Microseconds since 1970-01-01T00:00:00. -/
def DateTime.toEpochMicro (t : DateTime) : Int :=
  daysFromCivil t.year t.month t.day * 86400000000 +
    t.hour * 3600000000 + t.minute * 60000000 + t.second * 1000000 +
    t.microsecond

/-- `DateTime` from microseconds since the epoch. -/
def DateTime.ofEpochMicro (us : Int) : DateTime :=
  let day := Int.fdiv us 86400000000
  let rem := (us - day * 86400000000).toNat
  let (y, m, d) := civilFromDays day
  { year := y.toNat, month := m.toNat, day := d.toNat,
    hour := rem / 3600000000, minute := rem / 60000000 % 60,
    second := rem / 1000000 % 60, microsecond := rem % 1000000 }

/-- `(a - b).total_seconds()` on two `datetime` values. -/
def DateTime.subSeconds (a b : DateTime) : ℚ :=
  ((a.toEpochMicro - b.toEpochMicro : Int) : ℚ) / 1000000

/-- `t + timedelta(seconds=r)` (rounded to whole microseconds, as
`timedelta` stores). -/
def DateTime.addSeconds (t : DateTime) (r : ℚ) : DateTime :=
  DateTime.ofEpochMicro (t.toEpochMicro + round (r * 1000000))

/-! ## Capture loop (`core/recorder.py`)

Only the writer-lifecycle state of `ScreenRecorder` is modelled; the
camera, the clock and the filesystem are inputs.  The single failure the
claims exercise is `VideoWriter.release()` raising during
`_finalize_current_chunk`. -/

/-- Writer-lifecycle state of `ScreenRecorder`. -/
structure RecorderState where
  recording : Bool := false
  paused : Bool := false
  writerOpen : Bool := false
  currentChunkPath : Option String := none
  currentChunkStart : Option DateTime := none
  frameCount : Nat := 0
deriving Repr

/-- `SegmentWriteError`: finalizing the writer failed. -/
inductive SegmentWriteError where
  | releaseFailed
deriving DecidableEq, Repr

/-- External facts one loop iteration observes. -/
structure RecorderEnv where
  frameIntervalElapsed : Bool := true
  frameReady : Bool := true
  releaseFails : Bool := false
  pathExists : String → Bool := fun _ => true

/-- `_should_create_new_chunk`. -/
def shouldCreateNewChunk (chunkDuration : ℚ) (now : DateTime)
    (s : RecorderState) : Bool :=
  match s.currentChunkStart with
  | none => true
  | some st => decide (DateTime.subSeconds now st ≥ chunkDuration)

/-- `_create_new_chunk` (the writer is opened on a fresh path named from
the clock). -/
def createNewChunk (now : DateTime) (s : RecorderState) : RecorderState :=
  { s with currentChunkPath := some ("chunk_" ++ toString now.year ++ ".mp4"),
           currentChunkStart := some now,
           frameCount := 0,
           writerOpen := true }

/-- `_finalize_current_chunk`: release the writer (which may raise), then
emit the completed-segment event when the backing file exists.  The
emitted `VideoChunk` is returned; callback errors are caught inside and do
not alter the state. -/
def finalizeCurrentChunk (env : RecorderEnv) (now : DateTime)
    (s : RecorderState) :
    Except SegmentWriteError (RecorderState × Option VideoChunk) :=
  if s.writerOpen = false then .ok (s, none)
  else if env.releaseFails then .error .releaseFailed
  else
    let emitted :=
      match s.currentChunkPath, s.currentChunkStart with
      | some p, some st =>
        if p ≠ "" ∧ env.pathExists p then
          some { file_path := p, start_time := some st, end_time := some now,
                 duration_seconds := DateTime.subSeconds now st,
                 status := ChunkStatus.pending }
        else none
      | _, _ => none
    .ok ({ s with writerOpen := false, currentChunkPath := none,
                  currentChunkStart := none, frameCount := 0 }, emitted)

/-- The `try` body of one `_recording_loop` iteration, after the rate and
pause gates: grab a frame, rotate if due (finalization may raise), write
the frame. -/
def recordingIterBody (env : RecorderEnv) (chunkDuration : ℚ)
    (now : DateTime) (s : RecorderState) :
    Except SegmentWriteError (RecorderState × Option VideoChunk) := do
  if env.frameReady = false then
    return (s, none)
  let (s1, emitted) ←
    if shouldCreateNewChunk chunkDuration now s then do
      let (s2, e) ← finalizeCurrentChunk env now s
      pure (createNewChunk now s2, e)
    else
      pure (s, none)
  if s1.writerOpen then
    return ({ s1 with frameCount := s1.frameCount + 1 }, emitted)
  return (s1, emitted)

/-- One full `_recording_loop` iteration: the rate gate, the pause gate,
and the `try`/`except` that logs any error and continues. -/
def recordingIter (env : RecorderEnv) (chunkDuration : ℚ) (now : DateTime)
    (s : RecorderState) : RecorderState × Option VideoChunk :=
  if env.frameIntervalElapsed = false then (s, none)
  else if s.paused then (s, none)
  else
    match recordingIterBody env chunkDuration now s with
    | .ok r => r
    | .error _ => (s, none)

/-- `stop()`: signal the loop, join it, then finalize any in-flight
segment with no handler around the call. -/
def recorderStop (env : RecorderEnv) (now : DateTime) (s : RecorderState) :
    Except SegmentWriteError (RecorderState × Option VideoChunk) :=
  if s.recording = false then .ok (s, none)
  else finalizeCurrentChunk env now { s with recording := false }

/-! ## JSON values and a model of `json.loads`

`json.loads` is modelled by an executable fuel-based JSON reader over the
character list of the input; `json.dumps` by a printer.  The exact
spelling of dumped numerals and exotic accepted inputs (`inf` spellings,
underscore separators) are outside the model; no claim exercises them. -/

/-- Parsed JSON values.  Python dicts are association lists in insertion
order; `json.loads` keeps the last binding of a duplicated key, which the
lookup below mirrors. -/
inductive Json where
  | null
  | bool (b : Bool)
  | num (q : ℚ)
  | str (s : String)
  | arr (elems : List Json)
  | obj (members : List (String × Json))
deriving Inhabited, Repr

/-- The opening-brace character. -/
def braceOpen : Char := Char.ofNat 123

/-- The closing-brace character. -/
def braceClose : Char := Char.ofNat 125

/-- JSON whitespace. -/
def isWsChar (c : Char) : Bool :=
  c = ' ' || c = '\t' || c = '\n' || c = '\r'

/-- Drop leading whitespace. -/
def skipWs : List Char → List Char
  | c :: cs => if isWsChar c then skipWs cs else c :: cs
  | [] => []

/-- ASCII digit test. -/
def isDigitChar (c : Char) : Bool := '0' ≤ c && c ≤ '9'

/-- Split a leading run of digits from the rest. -/
def takeDigits : List Char → List Char × List Char
  | c :: cs =>
    if isDigitChar c then
      let (ds, r) := takeDigits cs
      (c :: ds, r)
    else ([], c :: cs)
  | [] => ([], [])

/-- Numeric value of a digit run. -/
def digitsVal (ds : List Char) : Nat :=
  ds.foldl (fun a c => a * 10 + (c.toNat - 48)) 0

/-- Read a JSON number (optional sign, integer part, optional fraction,
optional exponent). -/
def parseNumber (cs0 : List Char) : Option (ℚ × List Char) :=
  let (neg, cs1) :=
    match cs0 with
    | '-' :: r => (true, r)
    | '+' :: r => (false, r)
    | r => (false, r)
  let (ip, cs2) := takeDigits cs1
  if ip = [] then none
  else
    let (fp, cs3) :=
      match cs2 with
      | '.' :: r =>
        let (ds, r2) := takeDigits r
        (ds, r2)
      | r => ([], r)
    let (hasExp, expNeg, ep, cs4) :=
      match cs3 with
      | 'e' :: r | 'E' :: r =>
        match r with
        | '-' :: r2 => let (ds, r3) := takeDigits r2; (true, true, ds, r3)
        | '+' :: r2 => let (ds, r3) := takeDigits r2; (true, false, ds, r3)
        | r2 => let (ds, r3) := takeDigits r2; (true, false, ds, r3)
      | r => (false, false, [], r)
    if hasExp ∧ ep = [] then none
    else
      let mant : ℚ :=
        if fp = [] then ((digitsVal ip : ℕ) : ℚ)
        else ((digitsVal ip * 10 ^ fp.length + digitsVal fp : ℕ) : ℚ) /
          (10 : ℚ) ^ fp.length
      let scaled : ℚ :=
        if hasExp then
          if expNeg then mant / (10 : ℚ) ^ digitsVal ep
          else mant * (10 : ℚ) ^ digitsVal ep
        else mant
      some (if neg then -scaled else scaled, cs4)

/-- Value of a hex digit. -/
def hexVal (c : Char) : Option Nat :=
  if isDigitChar c then some (c.toNat - 48)
  else if 'a' ≤ c && c ≤ 'f' then some (c.toNat - 87)
  else if 'A' ≤ c && c ≤ 'F' then some (c.toNat - 55)
  else none

/-- Read the body of a JSON string after the opening quote. -/
def parseStringBody : Nat → List Char → String → Option (String × List Char)
  | 0, _, _ => none
  | fuel + 1, cs, acc =>
    match cs with
    | [] => none
    | '"' :: r => some (acc, r)
    | '\\' :: e :: r =>
      if e = '"' then parseStringBody fuel r (acc.push '"')
      else if e = '\\' then parseStringBody fuel r (acc.push '\\')
      else if e = '/' then parseStringBody fuel r (acc.push '/')
      else if e = 'n' then parseStringBody fuel r (acc.push '\n')
      else if e = 't' then parseStringBody fuel r (acc.push '\t')
      else if e = 'r' then parseStringBody fuel r (acc.push '\r')
      else if e = 'b' then parseStringBody fuel r (acc.push (Char.ofNat 8))
      else if e = 'f' then parseStringBody fuel r (acc.push (Char.ofNat 12))
      else if e = 'u' then
        match r with
        | a :: b :: c :: d :: r2 =>
          match hexVal a, hexVal b, hexVal c, hexVal d with
          | some va, some vb, some vc, some vd =>
            parseStringBody fuel r2
              (acc.push (Char.ofNat (((va * 16 + vb) * 16 + vc) * 16 + vd)))
          | _, _, _, _ => none
        | _ => none
      else none
    | c :: r => parseStringBody fuel r (acc.push c)

mutual

/-- Read one JSON value. -/
def parseValue : Nat → List Char → Option (Json × List Char)
  | 0, _ => none
  | fuel + 1, cs0 =>
    match skipWs cs0 with
    | 'n' :: 'u' :: 'l' :: 'l' :: r => some (.null, r)
    | 't' :: 'r' :: 'u' :: 'e' :: r => some (.bool true, r)
    | 'f' :: 'a' :: 'l' :: 's' :: 'e' :: r => some (.bool false, r)
    | '"' :: r =>
      match parseStringBody fuel r "" with
      | some (s, r2) => some (.str s, r2)
      | none => none
    | '[' :: r =>
      (match skipWs r with
       | ']' :: r2 => some (.arr [], r2)
       | r2 => parseElems fuel r2 [])
    | cs =>
      match cs with
      | [] => none
      | c :: r =>
        if c = braceOpen then
          match skipWs r with
          | [] => none
          | c2 :: r2 =>
            if c2 = braceClose then some (.obj [], r2)
            else parseMembers fuel (c2 :: r2) []
        else
          match parseNumber cs with
          | some (q, r2) => some (.num q, r2)
          | none => none

/-- Read the elements of an array after the first has been reached. -/
def parseElems : Nat → List Char → List Json → Option (Json × List Char)
  | 0, _, _ => none
  | fuel + 1, cs, acc =>
    match parseValue fuel cs with
    | none => none
    | some (v, r) =>
      match skipWs r with
      | ',' :: r2 => parseElems fuel r2 (acc ++ [v])
      | ']' :: r2 => some (.arr (acc ++ [v]), r2)
      | _ => none

/-- Read the members of an object after the first has been reached. -/
def parseMembers : Nat → List Char → List (String × Json) →
    Option (Json × List Char)
  | 0, _, _ => none
  | fuel + 1, cs, acc =>
    match skipWs cs with
    | '"' :: r =>
      match parseStringBody fuel r "" with
      | none => none
      | some (k, r2) =>
        match skipWs r2 with
        | ':' :: r3 =>
          match parseValue fuel r3 with
          | none => none
          | some (v, r4) =>
            match skipWs r4 with
            | ',' :: r5 => parseMembers fuel r5 (acc ++ [(k, v)])
            | c :: r5 =>
              if c = braceClose then some (.obj (acc ++ [(k, v)]), r5)
              else none
            | [] => none
        | _ => none
    | _ => none

end

/-- `json.loads`: read one value, require only whitespace after it.  The
fuel bound is generous for any input of the given length. -/
def jsonLoads (s : String) : Except Unit Json :=
  match parseValue (4 * s.data.length + 16) s.data with
  | some (v, rest) => if skipWs rest = [] then .ok v else .error ()
  | none => .error ()

/-- Python truthiness of a JSON-shaped value. -/
def Json.truthy : Json → Bool
  | .null => false
  | .bool b => b
  | .num q => decide (q ≠ 0)
  | .str s => decide (s ≠ "")
  | .arr l => !l.isEmpty
  | .obj l => !l.isEmpty

/-- Last binding of a key in an association list (what a Python dict
built by `json.loads` holds for a duplicated key). -/
def lookupLast (k : String) (l : List (String × Json)) : Option Json :=
  (l.reverse.find? (fun p => decide (p.1 = k))).map Prod.snd

/-- Python exception kinds the parsing paths can raise. -/
inductive PyErr where
  | attributeError
  | typeError
  | valueError
  | keyError
  | fileNotFound
deriving DecidableEq, Repr

/-- `x.get(key, default)`: raises `AttributeError` unless `x` is a dict. -/
def pyGet (j : Json) (k : String) (dflt : Json) : Except PyErr Json :=
  match j with
  | .obj l => .ok ((lookupLast k l).getD dflt)
  | _ => .error .attributeError

/-- `x[key]` on a value expected to be a dict. -/
def pyGetItem (j : Json) (k : String) : Except PyErr Json :=
  match j with
  | .obj l =>
    match lookupLast k l with
    | some v => .ok v
    | none => .error .keyError
  | _ => .error .typeError

/-- `for x in v`: arrays yield their elements, strings their characters,
dicts their keys; other values raise `TypeError`. -/
def pyIter : Json → Except PyErr (List Json)
  | .arr l => .ok l
  | .str s => .ok (s.data.map (fun c => Json.str (String.mk [c])))
  | .obj l => .ok (l.map (fun p => Json.str p.1))
  | _ => .error .typeError

/-- `float(x)`. -/
def pyFloat : Json → Except PyErr ℚ
  | .num q => .ok q
  | .bool b => .ok (if b then 1 else 0)
  | .str s =>
    (match parseNumber (skipWs s.data) with
     | some (q, r) => if skipWs r = [] then .ok q else .error .valueError
     | none => .error .valueError)
  | _ => .error .typeError

/-- Minimal JSON escaping for `json.dumps` output (enough for the strings
this pipeline writes; non-ASCII escaping is not load-bearing here). -/
def escapeJsonChar (c : Char) : String :=
  if c = '"' then "\\\""
  else if c = '\\' then "\\\\"
  else if c = '\n' then "\\n"
  else if c = '\t' then "\\t"
  else if c = '\r' then "\\r"
  else String.mk [c]

mutual

/-- `json.dumps`. -/
def Json.dump : Json → String
  | .null => "null"
  | .bool true => "true"
  | .bool false => "false"
  | .num q => toString q.num ++ (if q.den = 1 then "" else "/" ++ toString q.den)
  | .str s => "\"" ++ String.join (s.data.map escapeJsonChar) ++ "\""
  | .arr l => "[" ++ dumpList l ++ "]"
  | .obj l => "\x7b" ++ dumpMembers l ++ "\x7d"

/-- Comma-separated dump of array elements. -/
def dumpList : List Json → String
  | [] => ""
  | [x] => Json.dump x
  | x :: xs => Json.dump x ++ ", " ++ dumpList xs

/-- Comma-separated dump of object members. -/
def dumpMembers : List (String × Json) → String
  | [] => ""
  | [(k, v)] => "\"" ++ k ++ "\": " ++ Json.dump v
  | (k, v) :: xs => "\"" ++ k ++ "\": " ++ Json.dump v ++ ", " ++ dumpMembers xs

end

/-! ## `datetime.isoformat` / `datetime.fromisoformat`

Timezone-aware forms are outside the model (`fromIso` rejects an offset
suffix); the pipeline only stores naive datetimes. -/

/-- Zero-padded decimal rendering with exactly `k` digits. -/
def padChars : Nat → Nat → List Char
  | 0, _ => []
  | k + 1, n => padChars k (n / 10) ++ [Char.ofNat (48 + n % 10)]

/-- `datetime.isoformat()` as a character list: the fraction is omitted
exactly when the microsecond field is zero. -/
def DateTime.isoChars (t : DateTime) : List Char :=
  padChars 4 t.year ++ ['-'] ++ padChars 2 t.month ++ ['-'] ++ padChars 2 t.day ++
    ['T'] ++ padChars 2 t.hour ++ [':'] ++ padChars 2 t.minute ++ [':'] ++
    padChars 2 t.second ++
    (if t.microsecond = 0 then [] else ['.'] ++ padChars 6 t.microsecond)

/-- `datetime.isoformat()`. -/
def DateTime.iso (t : DateTime) : String := String.mk t.isoChars

/-- Gregorian leap year. -/
def isLeapYear (y : Nat) : Bool := y % 4 = 0 && (y % 100 ≠ 0 || y % 400 = 0)

/-- Length of a month. -/
def daysInMonth (y m : Nat) : Nat :=
  if m = 2 then (if isLeapYear y then 29 else 28)
  else if m = 4 ∨ m = 6 ∨ m = 9 ∨ m = 11 then 30
  else 31

/-- Read exactly `k` digits. -/
def parseFixedDigits (k : Nat) (cs : List Char) : Option (Nat × List Char) :=
  let ds := cs.take k
  if ds.length = k ∧ ds.all isDigitChar then some (digitsVal ds, cs.drop k)
  else none

/-- Read `HH:MM[:SS[.ffffff]]` and require the input to end there. -/
def fromIsoTime (y mo d : Nat) (cs : List Char) : Option DateTime := do
  let (h, r1) ← parseFixedDigits 2 cs
  match r1 with
  | ':' :: r2 => do
    let (mi, r3) ← parseFixedDigits 2 r2
    let finish := fun (ss us : Nat) =>
      if h ≤ 23 ∧ mi ≤ 59 ∧ ss ≤ 59 then
        some (⟨y, mo, d, h, mi, ss, us⟩ : DateTime)
      else none
    match r3 with
    | [] => finish 0 0
    | ':' :: r4 => do
      let (ss, r5) ← parseFixedDigits 2 r4
      match r5 with
      | [] => finish ss 0
      | '.' :: r6 =>
        let (ds2, r7) := takeDigits r6
        if 1 ≤ ds2.length ∧ ds2.length ≤ 6 ∧ r7 = [] then
          finish ss (digitsVal ds2 * 10 ^ (6 - ds2.length))
        else none
      | _ => none
    | _ => none
  | _ => none

/-- `datetime.fromisoformat` on the character list. -/
def fromIsoChars (cs : List Char) : Option DateTime := do
  let (y, r1) ← parseFixedDigits 4 cs
  match r1 with
  | '-' :: r2 => do
    let (mo, r3) ← parseFixedDigits 2 r2
    match r3 with
    | '-' :: r4 => do
      let (d, r5) ← parseFixedDigits 2 r4
      if 1 ≤ mo ∧ mo ≤ 12 ∧ 1 ≤ d ∧ d ≤ daysInMonth y mo then
        match r5 with
        | [] => some ⟨y, mo, d, 0, 0, 0, 0⟩
        | sep :: r6 =>
          if sep = 'T' ∨ sep = ' ' then fromIsoTime y mo d r6 else none
      else none
    | _ => none
  | _ => none

/-- `datetime.fromisoformat`. -/
def fromIso (s : String) : Option DateTime := fromIsoChars s.data

/-! ## Data model dataclasses (`core/types.py`)

Dynamically-typed fields (whatever the model reply supplied) stay JSON
values; time fields hold parsed datetimes; numeric fields the code pipes
through `float()` are rationals. -/

/-- `Observation` dataclass. -/
structure Observation where
  start_ts : ℚ
  end_ts : ℚ
  text : Json
  app_name : Json := Json.null
  window_title : Json := Json.null
deriving Repr

/-- `Observation.to_dict`. -/
def Observation.to_dict (o : Observation) : Json :=
  .obj [("start_ts", .num o.start_ts), ("end_ts", .num o.end_ts),
        ("text", o.text), ("app_name", o.app_name),
        ("window_title", o.window_title)]

/-- `AppSite` dataclass. -/
structure AppSite where
  name : Json := Json.str ""
  duration_seconds : Json := Json.num 0
  icon_url : Json := Json.null
deriving Repr

/-- `AppSite.to_dict`. -/
def AppSite.to_dict (a : AppSite) : Json :=
  .obj [("name", a.name), ("duration_seconds", a.duration_seconds),
        ("icon_url", a.icon_url)]

/-- `AppSite.from_dict`. -/
def AppSite.from_dict (d : Json) : Except PyErr AppSite := do
  let n ← pyGet d "name" (Json.str "")
  let du ← pyGet d "duration_seconds" (Json.num 0)
  let ic ← pyGet d "icon_url" Json.null
  pure { name := n, duration_seconds := du, icon_url := ic }

/-- `Distraction` dataclass. -/
structure Distraction where
  description : Json := Json.str ""
  timestamp : Json := Json.num 0
  duration_seconds : Json := Json.num 0
deriving Repr

/-- `Distraction.to_dict`. -/
def Distraction.to_dict (d : Distraction) : Json :=
  .obj [("description", d.description), ("timestamp", d.timestamp),
        ("duration_seconds", d.duration_seconds)]

/-- `Distraction.from_dict`. -/
def Distraction.from_dict (j : Json) : Except PyErr Distraction := do
  let de ← pyGet j "description" (Json.str "")
  let ts ← pyGet j "timestamp" (Json.num 0)
  let du ← pyGet j "duration_seconds" (Json.num 0)
  pure { description := de, timestamp := ts, duration_seconds := du }

/-- `ActivityCard` dataclass.  `relative_start`/`relative_end` model the
dynamically-attached `_relative_start`/`_relative_end` attributes the
scheduler probes with `hasattr`; the dataclass declares no such fields and
no code path sets them, so they are `none` on every card the provider
returns. -/
structure ActivityCard where
  id : Option Nat := none
  category : Json := Json.str ""
  title : Json := Json.str ""
  summary : Json := Json.str ""
  start_time : Option DateTime := none
  end_time : Option DateTime := none
  app_sites : List AppSite := []
  distractions : List Distraction := []
  productivity_score : ℚ := 0
  relative_start : Option ℚ := none
  relative_end : Option ℚ := none
deriving Repr

/-- `AnalysisBatch` dataclass. -/
structure AnalysisBatch where
  id : Option Nat := none
  chunk_ids : List Nat := []
  start_time : Option DateTime := none
  end_time : Option DateTime := none
  status : BatchStatus := BatchStatus.pending
  observations_json : String := "[]"
  error_message : Option String := none
deriving Repr

/-! ## Backend client (`core/llm_provider.py`) -/

/-- `re.search(r'\x7b[\sS]*\x7d', text)` (greedy): the match runs from
the first opening brace to the last closing brace and exists exactly when
the first opening brace precedes some closing brace. -/
def jsonExtract (s : String) : Option String :=
  let cs := s.data
  match cs.findIdx? (· = braceOpen) with
  | none => none
  | some i =>
    match cs.reverse.findIdx? (· = braceClose) with
    | none => none
    | some rj =>
      let j := cs.length - 1 - rj
      if i < j then some (String.mk ((cs.drop i).take (j - i + 1))) else none

/-- Build one `Observation` from a parsed item (the loop body of
`_parse_observations_from_text`); `float()` failures and `.get` on a
non-dict item propagate, as only `JSONDecodeError` is caught there. -/
def buildObservation (duration : ℚ) (item : Json) : Except PyErr Observation := do
  let st ← pyGet item "start_ts" (Json.num 0)
  let stq ← pyFloat st
  let en ← pyGet item "end_ts" (Json.num duration)
  let enq ← pyFloat en
  let tx ← pyGet item "text" (Json.str "")
  let an ← pyGet item "app_name" Json.null
  let wt ← pyGet item "window_title" Json.null
  pure { start_ts := stq, end_ts := enq, text := tx, app_name := an,
         window_title := wt }

/-- `_parse_observations_from_text`: no brace-delimited region means the
`if json_match` guard is skipped and the empty list is returned; a region
that fails `json.loads` raises `JSONDecodeError`, the one exception the
handler catches, producing the single fallback observation over
`[0, duration]` with the raw reply truncated to 500 characters; errors
while reading the parsed items propagate. -/
def parseObservationsFromText (text : String) (duration : ℚ) :
    Except PyErr (List Observation) :=
  match jsonExtract text with
  | none => .ok []
  | some extract =>
    match jsonLoads extract with
    | .error _ =>
      .ok [{ start_ts := 0, end_ts := duration,
             text := Json.str (String.mk (text.data.take 500)) }]
    | .ok data => do
      let itemsJ ← pyGet data "observations" (Json.arr [])
      let items ← pyIter itemsJ
      items.mapM (buildObservation duration)

/-- Build one `ActivityCard` from a parsed entry (the loop body of
`_parse_cards_from_text`).  The two timestamp reads sit in small `try`
blocks with bare handlers: an unreadable start falls back to the
`start_time` argument, an unreadable end is left unset.  Everything else
— `.get` on a non-dict entry, iterating a non-iterable, `float()` on a
non-numeric score — propagates. -/
def parseCardEntry (startTime : Option DateTime) (item : Json) :
    Except PyErr ActivityCard := do
  let stJ ← pyGet item "start_time" Json.null
  let cardStart :=
    if stJ.truthy then
      match pyGetItem item "start_time" with
      | .ok (.str s) =>
        (match fromIso (s.replace "Z" "+00:00") with
         | some dt => some dt
         | none => startTime)
      | _ => startTime
    else startTime
  let enJ ← pyGet item "end_time" Json.null
  let cardEnd :=
    if enJ.truthy then
      match pyGetItem item "end_time" with
      | .ok (.str s) => fromIso (s.replace "Z" "+00:00")
      | _ => none
    else none
  let appsJ ← pyGet item "app_sites" (Json.arr [])
  let apps ← pyIter appsJ
  let appSites ← apps.mapM (fun app => do
    let n ← pyGet app "name" (Json.str "")
    let du ← pyGet app "duration_seconds" (Json.num 0)
    pure ({ name := n, duration_seconds := du } : AppSite))
  let distsJ ← pyGet item "distractions" (Json.arr [])
  let dists ← pyIter distsJ
  let distractions ← dists.mapM (fun dj => do
    let de ← pyGet dj "description" (Json.str "")
    let ts ← pyGet dj "timestamp" (Json.num 0)
    let du ← pyGet dj "duration_seconds" (Json.num 0)
    pure ({ description := de, timestamp := ts, duration_seconds := du } :
      Distraction))
  let cat ← pyGet item "category" (Json.str "其他")
  let ttl ← pyGet item "title" (Json.str "未命名活动")
  let smr ← pyGet item "summary" (Json.str "")
  let scJ ← pyGet item "productivity_score" (Json.num 0)
  let score ← pyFloat scJ
  pure { category := cat, title := ttl, summary := smr,
         start_time := cardStart, end_time := cardEnd,
         app_sites := appSites, distractions := distractions,
         productivity_score := score }

/-- `_parse_cards_from_text`: no brace-delimited region or a
`JSONDecodeError` yields the empty list; any error in an individual entry
propagates out of the whole function, because the only handler catches
`JSONDecodeError` alone and the entry loop has no handler of its own. -/
def parseCardsFromText (text : String) (startTime : Option DateTime) :
    Except PyErr (List ActivityCard) :=
  match jsonExtract text with
  | none => .ok []
  | some extract =>
    match jsonLoads extract with
    | .error _ => .ok []
    | .ok data => do
      let itemsJ ← pyGet data "cards" (Json.arr [])
      let items ← pyIter itemsJ
      items.mapM (parseCardEntry startTime)

/-- Backend-call outcomes and filesystem facts the provider observes:
whether a video file exists, how many frames `cv2` extracts from it, and
the outcome of each chat-completions HTTP round trip (`.error` covers a
non-success status, a timeout, or a network failure). -/
structure ProviderEnv where
  fileExists : String → Bool := fun _ => true
  frameCount : String → Nat := fun _ => 8
  transcribeHttp : String → Except Unit String := fun _ => .error ()
  synthesizeHttp : Except Unit String := .error ()

/-- `transcribe_video`: raises `FileNotFoundError` before the `try` when
the file is missing; returns `[]` when no frames could be extracted; and
its `try`/`except` catches every error from the HTTP call and from
observation parsing, returning `[]` instead of raising. -/
def transcribeVideo (env : ProviderEnv) (videoPath : String) (duration : ℚ) :
    Except PyErr (List Observation) :=
  if env.fileExists videoPath = false then .error .fileNotFound
  else if env.frameCount videoPath = 0 then .ok []
  else
    match env.transcribeHttp videoPath with
    | .error _ => .ok []
    | .ok text =>
      match parseObservationsFromText text duration with
      | .ok obs => .ok obs
      | .error _ => .ok []

/-- `generate_activity_cards`: empty observations short-circuit to `[]`;
the context cards only shape the prompt text; and the `try`/`except`
catches every error from the HTTP call and from card parsing, returning
`[]` instead of raising. -/
def generateActivityCards (env : ProviderEnv) (observations : List Observation)
    (_contextCards : List ActivityCard) (startTime : Option DateTime) :
    List ActivityCard :=
  if observations.isEmpty then []
  else
    match env.synthesizeHttp with
    | .error _ => []
    | .ok text =>
      match parseCardsFromText text startTime with
      | .ok cards => cards
      | .error _ => []

/-! ## Persistence layer (`database/storage.py`)

Rows hold what the columns hold: datetimes as their `isoformat` TEXT
(compared bytewise by SQLite, which coincides with code-point order on
this ASCII data), JSON-list columns as the JSON value their
`json.dumps` text denotes (`json.loads` of what `json.dumps` produced is
taken as exact), and the remaining fields verbatim. -/

/-- Bytewise (code-point) string comparison, as SQLite compares TEXT. -/
def lexLe : List Char → List Char → Bool
  | [], _ => true
  | _ :: _, [] => false
  | a :: s, b :: t =>
    if a < b then true else if a = b then lexLe s t else false

/-- Strict bytewise comparison. -/
def lexLt : List Char → List Char → Bool
  | [], [] => false
  | [], _ :: _ => true
  | _ :: _, [] => false
  | a :: s, b :: t =>
    if a < b then true else if a = b then lexLt s t else false

/-- Three-way comparison of two equal-length character runs (a proof
device for reasoning about `lexLe` on segmented strings). -/
def lexCmpSeg : List Char → List Char → Ordering
  | [], _ => .eq
  | _ :: _, [] => .eq
  | a :: s, b :: t =>
    if a < b then .lt else if b < a then .gt else lexCmpSeg s t

/-- `ORDER BY` key comparison on a nullable TEXT column (`NULL` sorts
first). -/
def optTextLe : Option String → Option String → Bool
  | none, _ => true
  | some _, none => false
  | some a, some b => lexLe a.data b.data

/-- Insert into a sorted list. -/
def insertSorted (le : α → α → Bool) (x : α) : List α → List α
  | [] => [x]
  | y :: ys => if le x y then x :: y :: ys else y :: insertSorted le x ys

/-- Insertion sort (the stable order `ORDER BY` produces). -/
def insertionSortBy (le : α → α → Bool) : List α → List α
  | [] => []
  | x :: xs => insertSorted le x (insertionSortBy le xs)

/-- A row of the `chunks` table. -/
structure StoredChunk where
  id : Nat
  file_path : String := ""
  start_time : Option DateTime := none
  end_time : Option DateTime := none
  duration_seconds : ℚ := 0
  status : ChunkStatus := ChunkStatus.pending
  batch_id : Option Nat := none
deriving DecidableEq, Repr

/-- A row of the `analysis_batches` table. -/
structure StoredBatch where
  id : Nat
  chunk_ids : List Nat := []
  start_time : Option DateTime := none
  end_time : Option DateTime := none
  status : BatchStatus := BatchStatus.pending
  observations_json : String := "[]"
  error_message : Option String := none
deriving DecidableEq, Repr

/-- A row of the `timeline_cards` table. -/
structure CardRow where
  id : Nat
  batch_id : Option Nat := none
  category : Json := Json.str ""
  title : Json := Json.str ""
  summary : Json := Json.str ""
  start_time_text : Option String := none
  end_time_text : Option String := none
  app_sites_json : Json := Json.arr []
  distractions_json : Json := Json.arr []
  productivity_score : ℚ := 0
deriving Repr

/-- The database state reached through `StorageManager`. -/
structure Store where
  chunks : List StoredChunk := []
  batches : List StoredBatch := []
  cards : List CardRow := []
  nextBatchId : Nat := 1
  nextCardId : Nat := 1
deriving Repr

/-- `_row_to_chunk`. -/
def StoredChunk.toVideoChunk (r : StoredChunk) : VideoChunk :=
  { id := some r.id, file_path := r.file_path, start_time := r.start_time,
    end_time := r.end_time, duration_seconds := r.duration_seconds,
    status := r.status, batch_id := r.batch_id }

/-- `get_pending_chunks`: rows with status `pending`, ordered by the
`start_time` TEXT column ascending, limited. -/
def Store.getPendingChunks (st : Store) (limit : Nat := 100) : List VideoChunk :=
  ((insertionSortBy
      (fun a b => optTextLe (a.start_time.map DateTime.iso)
        (b.start_time.map DateTime.iso))
      (st.chunks.filter (fun c => c.status = ChunkStatus.pending))).take
    limit).map StoredChunk.toVideoChunk

/-- Row-level effect of `update_chunk_status` on one `chunks` row. -/
def updRow (cid : Nat) (status : ChunkStatus) (batchId : Option Nat)
    (row : StoredChunk) : StoredChunk :=
  if row.id = cid then
    match batchId with
    | some b => { row with status := status, batch_id := some b }
    | none => { row with status := status }
  else row

/-- `update_chunk_status`. -/
def Store.updateChunkStatus (st : Store) (cid : Nat) (status : ChunkStatus)
    (batchId : Option Nat := none) : Store :=
  { st with chunks := st.chunks.map (updRow cid status batchId) }

/-- `create_batch`: insert the row, hand back its rowid. -/
def Store.createBatch (st : Store) (b : AnalysisBatch) : Store × Nat :=
  ({ st with
       batches := st.batches ++
         [{ id := st.nextBatchId, chunk_ids := b.chunk_ids,
            start_time := b.start_time, end_time := b.end_time,
            status := b.status, observations_json := b.observations_json,
            error_message := b.error_message }],
       nextBatchId := st.nextBatchId + 1 }, st.nextBatchId)

/-- Row-level effect of `update_batch` on one `analysis_batches` row:
completion stores `observations_json or "[]"`, failure stores the error
message, other statuses change only the status. -/
def batchUpd (bid : Nat) (status : BatchStatus)
    (observationsJson : Option String) (errorMessage : Option String)
    (b : StoredBatch) : StoredBatch :=
  if b.id = bid then
    if status = BatchStatus.completed then
      { b with status := status,
               observations_json :=
                 match observationsJson with
                 | some s => if s = "" then "[]" else s
                 | none => "[]" }
    else if status = BatchStatus.failed then
      { b with status := status, error_message := errorMessage }
    else { b with status := status }
  else b

/-- `update_batch`. -/
def Store.updateBatch (st : Store) (bid : Nat) (status : BatchStatus)
    (observationsJson : Option String := none)
    (errorMessage : Option String := none) : Store :=
  { st with
      batches := st.batches.map (batchUpd bid status observationsJson errorMessage) }

/-- `save_card`: serialize the fields into a `timeline_cards` row. -/
def Store.saveCard (st : Store) (card : ActivityCard) (batchId : Option Nat) :
    Store × Nat :=
  ({ st with
       cards := st.cards ++
         [{ id := st.nextCardId, batch_id := batchId,
            category := card.category, title := card.title,
            summary := card.summary,
            start_time_text := card.start_time.map DateTime.iso,
            end_time_text := card.end_time.map DateTime.iso,
            app_sites_json := Json.arr (card.app_sites.map AppSite.to_dict),
            distractions_json :=
              Json.arr (card.distractions.map Distraction.to_dict),
            productivity_score := card.productivity_score }],
       nextCardId := st.nextCardId + 1 }, st.nextCardId)

/-- `datetime.fromisoformat(text) if text else None` on a stored TEXT
timestamp; an unparseable value raises. -/
def parseStoredTime : Option String → Except PyErr (Option DateTime)
  | none => .ok none
  | some s =>
    match fromIso s with
    | some dt => .ok (some dt)
    | none => .error PyErr.valueError

/-- `_row_to_card`: parse the stored TEXT timestamps and rebuild the
app-site and distraction lists through `from_dict`. -/
def rowToCard (r : CardRow) : Except PyErr ActivityCard := do
  let startT ← parseStoredTime r.start_time_text
  let endT ← parseStoredTime r.end_time_text
  let sitesJ ← pyIter r.app_sites_json
  let sites ← sitesJ.mapM AppSite.from_dict
  let distsJ ← pyIter r.distractions_json
  let dists ← distsJ.mapM Distraction.from_dict
  pure { id := some r.id, category := r.category, title := r.title,
         summary := r.summary, start_time := startT, end_time := endT,
         app_sites := sites, distractions := dists,
         productivity_score := r.productivity_score }

/-- `date.replace(hour=0, minute=0, second=0, microsecond=0)`. -/
def DateTime.startOfDay (d : DateTime) : DateTime :=
  { d with hour := 0, minute := 0, second := 0, microsecond := 0 }

/-- `date.replace(hour=23, minute=59, second=59, microsecond=999999)`. -/
def DateTime.endOfDay (d : DateTime) : DateTime :=
  { d with hour := 23, minute := 59, second := 59, microsecond := 999999 }

/-- `get_cards_for_date`: rows whose `start_time` TEXT lies between the
day bounds (a `NULL` never satisfies a SQL comparison), ordered
ascending, rebuilt into cards. -/
def Store.getCardsForDate (st : Store) (date : DateTime) :
    Except PyErr (List ActivityCard) :=
  let lo := date.startOfDay.isoChars
  let hi := date.endOfDay.isoChars
  ((insertionSortBy (fun a b => optTextLe a.start_time_text b.start_time_text)
      (st.cards.filter (fun r =>
        match r.start_time_text with
        | some s => lexLe lo s.data && lexLe s.data hi
        | none => false))).mapM rowToCard)

/-- `get_recent_cards`: rows ordered by the `end_time` TEXT column
descending (`NULL` last), limited, rebuilt into cards. -/
def Store.getRecentCards (st : Store) (limit : Nat) :
    Except PyErr (List ActivityCard) :=
  ((insertionSortBy (fun a b => optTextLe b.end_time_text a.end_time_text)
      st.cards).take limit).mapM rowToCard

/-! ## Analysis scheduler (`core/analysis.py`, `_process_batch`)

Storage operations are pure state updates here (the model does not inject
database failures), so inside the `try` of `_process_batch` the only
raise sites are the provider calls and result handling; the store a
handler observes is therefore the store as of the `update_batch
PROCESSING` call, which the model threads explicitly.  File deletion
after completion only touches the disk and is not part of the store. -/

/-- `if chunk.id:` — Python falsiness of both `None` and `0`. -/
def chunkIdTruthy : Option Nat → Bool
  | some i => i ≠ 0
  | none => false

/-- Timestamp shift of step 4: `obs.start_ts += offset` and
`obs.end_ts += offset`. -/
def shiftObservations (offset : ℚ) (obs : List Observation) : List Observation :=
  obs.map (fun o =>
    { o with start_ts := o.start_ts + offset, end_ts := o.end_ts + offset })

/-- One pass of the transcription loop: skip a chunk whose backing file
is gone, otherwise transcribe it and append its time-shifted
observations. -/
def accumStep (env : ProviderEnv) (batchStart : Option DateTime)
    (acc : List Observation) (c : VideoChunk) :
    Except PyErr (List Observation) := do
  if env.fileExists c.file_path = false then
    return acc
  let obs ← transcribeVideo env c.file_path c.duration_seconds
  let obs2 :=
    match c.start_time, batchStart with
    | some cst, some bst => shiftObservations (DateTime.subSeconds cst bst) obs
    | _, _ => obs
  return acc ++ obs2

/-- The `all_observations` accumulator after the transcription loop. -/
def accumulateObservations (env : ProviderEnv) (batchStart : Option DateTime)
    (chunks : List VideoChunk) : Except PyErr (List Observation) :=
  chunks.foldlM (accumStep env batchStart) []

/-- The absolute-time fix-up before `save_card`: each branch fires only
when the card misses the absolute time *and* carries the corresponding
relative offset — which no parsed card does. -/
def fixCardTimes (batchStart : Option DateTime) (card : ActivityCard) :
    ActivityCard :=
  match batchStart with
  | none => card
  | some bs =>
    let c1 :=
      if card.start_time.isNone ∧ card.relative_start.isSome then
        { card with
            start_time := some (bs.addSeconds (card.relative_start.getD 0)) }
      else card
    if c1.end_time.isNone ∧ c1.relative_end.isSome then
      { c1 with end_time := some (bs.addSeconds (c1.relative_end.getD 0)) }
    else c1

/-- Printable form of `str(e)` for the failure record. -/
def pyErrMessage : PyErr → String
  | .attributeError => "AttributeError"
  | .typeError => "TypeError"
  | .valueError => "ValueError"
  | .keyError => "KeyError"
  | .fileNotFound => "FileNotFoundError"

/-- The `AnalysisBatch` record `_process_batch` builds: the truthy chunk
ids, the first chunk's start and the last chunk's end. -/
def batchRecord (chunks : List VideoChunk) : AnalysisBatch :=
  { chunk_ids :=
      chunks.filterMap (fun c => if chunkIdTruthy c.id then c.id else none),
    start_time :=
      match chunks.head? with
      | some c => c.start_time
      | none => none,
    end_time :=
      match chunks.getLast? with
      | some c => c.end_time
      | none => none,
    status := BatchStatus.pending }

/-- One of the `for chunk in chunks: update_chunk_status(...)` loops. -/
def markChunks (status : ChunkStatus) (batchId : Option Nat)
    (chunks : List VideoChunk) (st : Store) : Store :=
  chunks.foldl
    (fun s c =>
      if chunkIdTruthy c.id then
        s.updateChunkStatus (c.id.getD 0) status batchId
      else s)
    st

/-- Row-level composite effect of one `markChunks` pass. -/
def applyMarks (status : ChunkStatus) (batchId : Option Nat) :
    List VideoChunk → StoredChunk → StoredChunk
  | [], row => row
  | c :: rest, row =>
    applyMarks status batchId rest
      (if chunkIdTruthy c.id then updRow (c.id.getD 0) status batchId row
       else row)

/-- The `try` body of `_process_batch` after the `PROCESSING` update:
transcribe everything, finish early with an empty result when no
observations accumulated, otherwise synthesize, save the cards, and mark
the batch and its chunks completed. -/
def processBatchTry (env : ProviderEnv) (batchId : Nat)
    (batchStart : Option DateTime) (chunks : List VideoChunk) (st : Store) :
    Except PyErr Store := do
  let allObs ← accumulateObservations env batchStart chunks
  if allObs.isEmpty then
    return st.updateBatch batchId BatchStatus.completed (some "[]")
  let contextCards ← st.getRecentCards 5
  let cards := generateActivityCards env allObs contextCards batchStart
  let st1 := cards.foldl
    (fun s card => (s.saveCard (fixCardTimes batchStart card) (some batchId)).1)
    st
  let obsJson := Json.dump (Json.arr (allObs.map Observation.to_dict))
  let st2 := st1.updateBatch batchId BatchStatus.completed (some obsJson)
  return markChunks ChunkStatus.completed none chunks st2

/-- `_process_batch`: create the batch record, mark the chunks
processing, run the `try` body, and on any exception record the failure
on the batch and its chunks and re-raise (the returned error).  The final
store is returned together with the exception that escaped, if any. -/
def processBatch (env : ProviderEnv) (st0 : Store) (chunks : List VideoChunk) :
    Store × Option PyErr :=
  if chunks.isEmpty then (st0, none)
  else
    let batch := batchRecord chunks
    let (st1, batchId) := st0.createBatch batch
    let st2 := markChunks ChunkStatus.processing (some batchId) chunks st1
    let stP := st2.updateBatch batchId BatchStatus.processing
    match processBatchTry env batchId batch.start_time chunks stP with
    | .ok st3 => (st3, none)
    | .error e =>
      let stf := stP.updateBatch batchId BatchStatus.failed none
        (some (pyErrMessage e))
      (markChunks ChunkStatus.failed none chunks stf, some e)

/-- One `_scan_and_process` cycle: fetch the pending chunks, bin them,
and process every batch in order, logging (and otherwise ignoring) the
error a failed batch re-raised. -/
def scanAndProcess (env : ProviderEnv) (batchDurationMinutes : ℚ)
    (st0 : Store) : Store :=
  let pending := st0.getPendingChunks
  let batches := createBatches batchDurationMinutes pending
  batches.foldl (fun s b => (processBatch env s b).1) st0

/-! ## Concrete example inputs used by witnesses and counterexamples -/

/-- Chunk start for the rotation counterexample: 2024-01-01T10:00:00. -/
def c7start : DateTime := ⟨2024, 1, 1, 10, 0, 0, 0⟩

/-- Clock at the failing iteration: 2024-01-01T10:02:00, two minutes into
a 60-second segment, so rotation is due. -/
def c7now : DateTime := ⟨2024, 1, 1, 10, 2, 0, 0⟩

/-- Recorder state with an open writer halfway through a chunk. -/
def c7state : RecorderState :=
  { recording := true, paused := false, writerOpen := true,
    currentChunkPath := some ("c.mp4"), currentChunkStart := some c7start,
    frameCount := 5 }

/-- Environment in which `VideoWriter.release()` raises. -/
def c7env : RecorderEnv :=
  { frameIntervalElapsed := true, frameReady := true, releaseFails := true,
    pathExists := fun _ => true }

/-- A reply with no brace-delimited region at all. -/
def c4reply : String := "hello"

/-- A reply whose brace-delimited region is not valid JSON. -/
def c4replyBad : String := "oops \x7b not json \x7d tail"

/-- Batch start used in the synthesize-parsing examples. -/
def c8start : DateTime := ⟨2024, 1, 1, 10, 0, 0, 0⟩

/-- A synthesize reply whose top-level JSON parses and whose `cards` list
holds one well-formed entry followed by one malformed entry (`42` is not
an object). -/
def c8resp : String := "\x7b\"cards\": [\x7b\"title\": \"ok\"\x7d, 42]\x7d"

/-- The same reply with only the well-formed entry. -/
def c8respGood : String := "\x7b\"cards\": [\x7b\"title\": \"ok\"\x7d]\x7d"

/-- The card the well-formed entry denotes. -/
def c8card : ActivityCard :=
  { category := Json.str "其他", title := Json.str "ok", summary := Json.str "",
    start_time := some c8start, end_time := none }

/-- One observation, so synthesis is actually attempted. -/
def c8obs : Observation := { start_ts := 0, end_ts := 60, text := Json.str "t" }

/-- The single segment of the failing-backend batch example. -/
def pbChunk : VideoChunk :=
  { id := some 1, file_path := "a.mp4",
    start_time := some ⟨2024, 1, 1, 10, 0, 0, 0⟩,
    end_time := some ⟨2024, 1, 1, 10, 1, 0, 0⟩, duration_seconds := 60 }

/-- A store holding that segment as a pending row. -/
def pbStore : Store :=
  { chunks := [{ id := 1, file_path := "a.mp4",
                 start_time := some ⟨2024, 1, 1, 10, 0, 0, 0⟩,
                 end_time := some ⟨2024, 1, 1, 10, 1, 0, 0⟩,
                 duration_seconds := 60, status := ChunkStatus.pending }] }

/-- Backend environment in which every HTTP call fails (the defaults). -/
def pbEnvFail : ProviderEnv := {}

/-- The store `_process_batch` leaves behind in that situation: the batch
is Completed with empty observations and the segment row stays
Processing. -/
def pbStoreAfter : Store :=
  { chunks := [{ id := 1, file_path := "a.mp4",
                 start_time := some ⟨2024, 1, 1, 10, 0, 0, 0⟩,
                 end_time := some ⟨2024, 1, 1, 10, 1, 0, 0⟩,
                 duration_seconds := 60, status := ChunkStatus.processing,
                 batch_id := some 1 }],
    batches := [{ id := 1, chunk_ids := [1],
                  start_time := some ⟨2024, 1, 1, 10, 0, 0, 0⟩,
                  end_time := some ⟨2024, 1, 1, 10, 1, 0, 0⟩,
                  status := BatchStatus.completed,
                  observations_json := "[]", error_message := none }],
    cards := [], nextBatchId := 2, nextCardId := 1 }

/-- The `timeline_cards` row `save_card` writes for a card. -/
def savedCardRow (st : Store) (card : ActivityCard) (bid : Option Nat) :
    CardRow :=
  { id := st.nextCardId, batch_id := bid, category := card.category,
    title := card.title, summary := card.summary,
    start_time_text := card.start_time.map DateTime.iso,
    end_time_text := card.end_time.map DateTime.iso,
    app_sites_json := Json.arr (card.app_sites.map AppSite.to_dict),
    distractions_json := Json.arr (card.distractions.map Distraction.to_dict),
    productivity_score := card.productivity_score }

/-- Query date of the round-trip example (equal to the card's start). -/
def c6date : DateTime := ⟨2024, 1, 2, 9, 30, 0, 0⟩

/-- A concrete card for the save/query round-trip example. -/
def c6card : ActivityCard :=
  { category := Json.str "编程", title := Json.str "Python 开发",
    summary := Json.str "s", start_time := some c6date,
    end_time := some ⟨2024, 1, 2, 11, 0, 0, 0⟩,
    app_sites := [{ name := Json.str "VS Code",
                    duration_seconds := Json.num 5400 }],
    distractions := [{ description := Json.str "d",
                       timestamp := Json.num 10 }],
    productivity_score := 85 }

/-- The card the round-trip query returns for `c6card`. -/
def c6res : ActivityCard :=
  { id := some 1, category := Json.str "编程", title := Json.str "Python 开发",
    summary := Json.str "s", start_time := some c6date,
    end_time := some ⟨2024, 1, 2, 11, 0, 0, 0⟩,
    app_sites := [{ name := Json.str "VS Code",
                    duration_seconds := Json.num 5400 }],
    distractions := [{ description := Json.str "d",
                       timestamp := Json.num 10 }],
    productivity_score := 85 }

/-! ## Theorems -/

lemma sumDurations_append (xs ys : List VideoChunk) :
    sumDurations (xs ++ ys) = sumDurations xs + sumDurations ys := by
  simp [sumDurations]

lemma sumDurations_singleton (c : VideoChunk) :
    sumDurations [c] = c.duration_seconds := by
  simp [sumDurations]

lemma goodBatch_of_open (cap : ℚ) (cur : List VideoChunk)
    (hsum : cur = [] ∨ sumDurations cur ≤ cap ∨ ∃ c, cur = [c])
    (hne : cur ≠ []) : GoodBatch cap cur := by
  rcases hsum with h | h | ⟨c, rfl⟩
  · exact absurd h hne
  · exact Or.inl h
  · by_cases hd : c.duration_seconds ≤ cap
    · exact Or.inl (by simpa [sumDurations_singleton] using hd)
    · exact Or.inr ⟨c, rfl, lt_of_not_le hd⟩

lemma batchFoldInv_step (cap : ℚ)
    (st : List (List VideoChunk) × List VideoChunk × ℚ) (c : VideoChunk)
    (h : BatchFoldInv cap st) :
    BatchFoldInv cap (createBatchesStep cap st c) := by
  obtain ⟨batches, cur, bd⟩ := st
  obtain ⟨hclosed, hsum, hcur⟩ := h
  dsimp only at hclosed hsum hcur
  subst hsum
  simp only [createBatchesStep]
  by_cases hcond : sumDurations cur + c.duration_seconds > cap ∧ cur ≠ []
  · rw [if_pos hcond]
    refine ⟨?_, ?_, Or.inr (Or.inr ⟨c, rfl⟩)⟩
    · intro b hb
      rcases List.mem_append.mp hb with h | h
      · exact hclosed b h
      · have hb2 := List.mem_singleton.mp h
        subst hb2
        exact goodBatch_of_open cap b hcur hcond.2
    · dsimp only
      rw [sumDurations_singleton]
  · rw [if_neg hcond]
    refine ⟨hclosed, ?_, ?_⟩
    · dsimp only
      rw [sumDurations_append, sumDurations_singleton]
    · rcases not_and_or.mp hcond with hle | hemp
      · refine Or.inr (Or.inl ?_)
        dsimp only
        rw [sumDurations_append, sumDurations_singleton]
        exact le_of_not_lt hle
      · have hc : cur = [] := not_not.mp hemp
        subst hc
        exact Or.inr (Or.inr ⟨c, by simp⟩)

lemma batchFoldInv_foldl (cap : ℚ) (chunks : List VideoChunk)
    (st : List (List VideoChunk) × List VideoChunk × ℚ)
    (h : BatchFoldInv cap st) :
    BatchFoldInv cap (chunks.foldl (createBatchesStep cap) st) := by
  induction chunks generalizing st with
  | nil => exact h
  | cons c rest ih => exact ih _ (batchFoldInv_step cap st c h)

lemma createBatchesAux_good (cap : ℚ) (chunks : List VideoChunk) :
    ∀ b ∈ createBatchesAux cap chunks, GoodBatch cap b := by
  intro b hb
  unfold createBatchesAux at hb
  by_cases hempty : chunks = []
  · simp [hempty] at hb
  · simp only [if_neg hempty] at hb
    have hinv : BatchFoldInv cap (chunks.foldl (createBatchesStep cap) ([], [], 0)) :=
      batchFoldInv_foldl cap chunks ([], [], 0) ⟨by simp, by simp [sumDurations], Or.inl rfl⟩
    obtain ⟨hclosed, _, hcur⟩ := hinv
    set res := chunks.foldl (createBatchesStep cap) ([], [], 0) with hres
    by_cases hne : res.2.1 ≠ []
    · simp only [if_pos hne] at hb
      rcases List.mem_append.mp hb with h | h
      · exact hclosed b h
      · rcases List.mem_singleton.mp h with rfl
        exact goodBatch_of_open cap _ hcur hne
    · simp only [if_neg hne] at hb
      exact hclosed b hb

/-- **C2**: the batching step is the greedy duration-capped bin-packing:
every produced batch has summed duration at most the cap or is a lone
oversized segment, both for an arbitrary cap and for the configured cap of
`batch_duration * 60` seconds, and durations [50,50,50] with cap 100
yield `[[seg1,seg2],[seg3]]`. -/
theorem C2_greedy_batching :
    (∀ (cap : ℚ) (chunks : List VideoChunk), ∀ b ∈ createBatchesAux cap chunks,
        sumDurations b ≤ cap ∨ ∃ c, b = [c] ∧ c.duration_seconds > cap) ∧
    (∀ (minutes : ℚ) (chunks : List VideoChunk), ∀ b ∈ createBatches minutes chunks,
        sumDurations b ≤ minutes * 60 ∨
          ∃ c, b = [c] ∧ c.duration_seconds > minutes * 60) ∧
    createBatchesAux 100 [c2seg1, c2seg2, c2seg3] = [[c2seg1, c2seg2], [c2seg3]] := by
  refine ⟨createBatchesAux_good, ?_, ?_⟩
  · intro minutes chunks b hb
    exact createBatchesAux_good (minutes * 60) chunks b hb
  · norm_num [createBatchesAux, createBatchesStep, c2seg1, c2seg2, c2seg3]
    simp

/-- Witness for C2 at the [50,50,50] / cap-100 example. -/
theorem C2_greedy_batching_witness :
    [c2seg1, c2seg2] ∈ createBatchesAux 100 [c2seg1, c2seg2, c2seg3] ∧
    (sumDurations [c2seg1, c2seg2] ≤ 100 ∨
      ∃ c, [c2seg1, c2seg2] = [c] ∧ c.duration_seconds > 100) := by
  have hmem : [c2seg1, c2seg2] ∈ createBatchesAux 100 [c2seg1, c2seg2, c2seg3] := by
    rw [C2_greedy_batching.2.2]; simp
  exact ⟨hmem, C2_greedy_batching.1 100 [c2seg1, c2seg2, c2seg3] [c2seg1, c2seg2] hmem⟩

lemma count_split (l : List PooledConnection) :
    (l.filter (·.inUse)).length + (l.filter (fun c => !c.inUse)).length = l.length := by
  induction l with
  | nil => rfl
  | cons c rest ih =>
    by_cases h : c.inUse <;> simp [List.filter_cons, h] <;> omega

lemma reuseFirstIdle_length (now : ℚ) (l : List PooledConnection) :
    ∀ r, reuseFirstIdle now l = some r → r.1.length = l.length := by
  induction l with
  | nil => intro r h; cases h
  | cons c rest ih =>
    intro r h
    by_cases hc : c.inUse
    · simp only [reuseFirstIdle, if_pos hc] at h
      cases hrec : reuseFirstIdle now rest with
      | none => rw [hrec] at h; cases h
      | some r2 =>
        rw [hrec] at h
        cases h
        simpa using ih r2 hrec
    · simp only [reuseFirstIdle, if_neg hc] at h
      cases h
      simp

lemma releaseIn_length (now : ℚ) (cid : Nat) (l : List PooledConnection) :
    (releaseIn now cid l).length = l.length := by
  induction l with
  | nil => rfl
  | cons c rest ih =>
    by_cases h : c.connId = cid <;> simp [releaseIn, h, ih]

lemma applyPoolOp_size (cfg : PoolConfig) (s : PoolState) (op : PoolOp)
    (h : s.pool.length ≤ cfg.maxSize) :
    (applyPoolOp cfg s op).pool.length ≤ cfg.maxSize := by
  cases op with
  | acquireOp now =>
    simp only [applyPoolOp]
    by_cases hc : s.closed
    · simpa [hc] using h
    · simp only [if_neg hc]
      cases hatt : tryAcquireAttempt cfg now s with
      | none => exact h
      | some r =>
        obtain ⟨s2, i⟩ := r
        simp only []
        unfold tryAcquireAttempt at hatt
        cases hreuse : reuseFirstIdle now s.pool with
        | some p =>
          rw [hreuse] at hatt
          obtain ⟨pool2, j⟩ := p
          cases hatt
          simpa [reuseFirstIdle_length now s.pool _ hreuse] using h
        | none =>
          rw [hreuse] at hatt
          by_cases hlt : s.pool.length < cfg.maxSize
          · rw [if_pos hlt] at hatt
            cases hatt
            simpa using hlt
          · rw [if_neg hlt] at hatt
            cases hatt
  | releaseOp now cid =>
    simp only [applyPoolOp, PoolState.release, releaseIn_length]
    exact h
  | cleanupOp now ok =>
    simp only [applyPoolOp, cleanupIdle]
    by_cases hc : s.closed
    · simpa [hc] using h
    · simp only [if_neg hc]
      exact le_trans (List.length_filter_le _ _) h
  | closeAllOp =>
    simp [applyPoolOp, PoolState.closeAll]

lemma runPoolOps_size (cfg : PoolConfig) (ops : List PoolOp) (s : PoolState)
    (h : s.pool.length ≤ cfg.maxSize) :
    (runPoolOps cfg s ops).pool.length ≤ cfg.maxSize := by
  induction ops generalizing s with
  | nil => exact h
  | cons op rest ih => exact ih _ (applyPoolOp_size cfg s op h)

/-- **C3**: after any interleaving of acquire, release, the idle-cleanup
pass and close_all, the in-use count plus the idle count equals the pool
size, which never exceeds the configured `max_size`. -/
theorem C3_pool_invariant (cfg : PoolConfig) (ops : List PoolOp) :
    (runPoolOps cfg PoolState.init ops).countInUse +
      (runPoolOps cfg PoolState.init ops).countIdle =
      (runPoolOps cfg PoolState.init ops).pool.length ∧
    (runPoolOps cfg PoolState.init ops).pool.length ≤ cfg.maxSize :=
  ⟨count_split _, runPoolOps_size cfg ops PoolState.init (by simp [PoolState.init])⟩

lemma reuseFirstIdle_some_of_idle (now : ℚ) (l : List PooledConnection)
    (hex : ∃ c ∈ l, c.inUse = false) :
    ∃ l2 c, reuseFirstIdle now l = some (l2, c.connId) ∧ c ∈ l ∧ c.inUse = false := by
  induction l with
  | nil => rcases hex with ⟨c, hc, _⟩; cases hc
  | cons a rest ih =>
    by_cases ha : a.inUse
    · have hex2 : ∃ c ∈ rest, c.inUse = false := by
        rcases hex with ⟨c, hc, hcu⟩
        rcases List.mem_cons.mp hc with rfl | h
        · rw [ha] at hcu; cases hcu
        · exact ⟨c, h, hcu⟩
      rcases ih hex2 with ⟨l2, c, heq, hmem, hcu⟩
      exact ⟨a :: l2, c, by simp [reuseFirstIdle, ha, heq],
             List.mem_cons_of_mem _ hmem, hcu⟩
    · exact ⟨a.markUsed now :: rest, a, by simp [reuseFirstIdle, ha],
             List.mem_cons_self a rest, by simpa using ha⟩

lemma reuseFirstIdle_none_of_busy (now : ℚ) (l : List PooledConnection)
    (h : ∀ c ∈ l, c.inUse = true) : reuseFirstIdle now l = none := by
  induction l with
  | nil => rfl
  | cons a rest ih =>
    have ha : a.inUse = true := h a (List.mem_cons_self a rest)
    simp [reuseFirstIdle, ha, ih (fun c hc => h c (List.mem_cons_of_mem _ hc))]

lemma tryAcquireAttempt_none (cfg : PoolConfig) (now : ℚ) (s : PoolState)
    (hsat : s.Saturated cfg) : tryAcquireAttempt cfg now s = none := by
  unfold tryAcquireAttempt
  rw [reuseFirstIdle_none_of_busy _ _ hsat.1, if_neg (Nat.not_lt.mpr hsat.2)]

lemma acquireLoop_ok (cfg : PoolConfig) (interfere : Nat → PoolState → PoolState)
    (now : ℚ) (tick fuel : Nat) (s : PoolState) (r : PoolState × Nat)
    (h : tryAcquireAttempt cfg (now + tick / 10) s = some r) :
    acquireLoop cfg interfere now tick fuel s = .ok r := by
  cases fuel <;> simp [acquireLoop, h]

lemma acquireLoop_exhausted (cfg : PoolConfig)
    (interfere : Nat → PoolState → PoolState) (now : ℚ)
    (hint : ∀ t s', PoolState.Saturated cfg s' → PoolState.Saturated cfg (interfere t s'))
    (fuel tick : Nat) (s : PoolState) (hsat : s.Saturated cfg) :
    acquireLoop cfg interfere now tick fuel s = .error .poolExhausted := by
  induction fuel generalizing tick s with
  | zero => simp [acquireLoop, tryAcquireAttempt_none cfg _ s hsat]
  | succ fuel ih =>
    simp [acquireLoop, tryAcquireAttempt_none cfg _ s hsat]
    exact ih (tick + 1) (interfere tick s) (hint tick s hsat)

lemma applyPoolOp_closed (cfg : PoolConfig) (s : PoolState) (op : PoolOp)
    (h : s.closed = true) : (applyPoolOp cfg s op).closed = true := by
  cases op with
  | acquireOp now => simp [applyPoolOp, h]
  | releaseOp now cid => simpa [applyPoolOp, PoolState.release] using h
  | cleanupOp now ok => simp [applyPoolOp, cleanupIdle, h]
  | closeAllOp => simp [applyPoolOp, PoolState.closeAll]

lemma runPoolOps_closed (cfg : PoolConfig) (ops : List PoolOp) (s : PoolState)
    (h : s.closed = true) : (runPoolOps cfg s ops).closed = true := by
  induction ops generalizing s with
  | nil => exact h
  | cons op rest ih => exact ih _ (applyPoolOp_closed cfg s op h)

/-- **C5**: `acquire` reuses an idle connection when one exists, creates a
new connection when below `max_size`, raises on timeout when the pool
stays saturated, raises immediately on a closed pool, and after
`close_all` every later `acquire` fails immediately however the pool is
used in between. -/
theorem C5_acquire_semantics (cfg : PoolConfig)
    (interfere : Nat → PoolState → PoolState) (now : ℚ) (s : PoolState) :
    (s.closed = true → acquire cfg interfere now s = .error .poolClosed) ∧
    (s.closed = false → (∃ c ∈ s.pool, c.inUse = false) →
      ∃ pool2 c, c ∈ s.pool ∧ c.inUse = false ∧
        acquire cfg interfere now s = .ok ({ s with pool := pool2 }, c.connId)) ∧
    (s.closed = false → (∀ c ∈ s.pool, c.inUse = true) →
      s.pool.length < cfg.maxSize →
      acquire cfg interfere now s =
        .ok ({ s with
                 pool := s.pool ++ [{ connId := s.nextId, createdAt := now,
                                      lastUsed := now, inUse := true }],
                 nextId := s.nextId + 1 }, s.nextId)) ∧
    (s.closed = false → s.Saturated cfg →
      (∀ t s', PoolState.Saturated cfg s' → PoolState.Saturated cfg (interfere t s')) →
      acquire cfg interfere now s = .error .poolExhausted) ∧
    (∀ ops : List PoolOp,
      acquire cfg interfere now (runPoolOps cfg s.closeAll ops) = .error .poolClosed) := by
  have htime : now + ((0 : Nat) : ℚ) / 10 = now := by norm_num
  refine ⟨fun h => by simp [acquire, h], ?_, ?_, ?_, ?_⟩
  · intro hcl hex
    rcases reuseFirstIdle_some_of_idle now s.pool hex with ⟨l2, c, heq, hmem, hcu⟩
    refine ⟨l2, c, hmem, hcu, ?_⟩
    unfold acquire
    rw [if_neg (by simp [hcl])]
    refine acquireLoop_ok cfg interfere now 0 cfg.timeoutTicks s _ ?_
    rw [htime]
    unfold tryAcquireAttempt
    rw [heq]
  · intro hcl hbusy hlt
    unfold acquire
    rw [if_neg (by simp [hcl])]
    refine acquireLoop_ok cfg interfere now 0 cfg.timeoutTicks s _ ?_
    rw [htime]
    unfold tryAcquireAttempt
    rw [reuseFirstIdle_none_of_busy _ _ hbusy, if_pos hlt]
  · intro hcl hsat hint
    unfold acquire
    rw [if_neg (by simp [hcl])]
    exact acquireLoop_exhausted cfg interfere now hint cfg.timeoutTicks 0 s hsat
  · intro ops
    have hc : (runPoolOps cfg s.closeAll ops).closed = true :=
      runPoolOps_closed cfg ops s.closeAll (by simp [PoolState.closeAll])
    simp [acquire, hc]

lemma c7_sub : DateTime.subSeconds c7now c7start = 120 := by
  have h : DateTime.toEpochMicro c7now - DateTime.toEpochMicro c7start = 120000000 := by
    decide
  rw [DateTime.subSeconds, h]
  norm_num

lemma c7_rotation_due : shouldCreateNewChunk 60 c7now c7state = true := by
  simp only [shouldCreateNewChunk, c7state, c7_sub]
  norm_num

/-- **C7 counterexample**: at a concrete state with the writer open and
rotation due, a failing finalize makes the loop body raise, but the
recording-loop iteration catches the error and continues with the state
unchanged — the error does not propagate out of the in-loop rotation
step, contrary to the claim. -/
theorem C7_counterexample :
    recordingIterBody c7env 60 c7now c7state = .error .releaseFailed ∧
    recordingIter c7env 60 c7now c7state = (c7state, none) := by
  have h1 : c7env.frameReady = true := rfl
  have h2 : c7env.releaseFails = true := rfl
  have h3 : c7state.writerOpen = true := rfl
  have hbody : recordingIterBody c7env 60 c7now c7state = .error .releaseFailed := by
    simp [recordingIterBody, finalizeCurrentChunk, c7_rotation_due, h1, h2, h3,
      Bind.bind, Except.bind, Pure.pure, Except.pure]
  refine ⟨hbody, ?_⟩
  unfold recordingIter
  rw [hbody]
  simp [c7env, c7state]

/-- **C7 amended**: a failing finalize propagates to the caller of
`stop()`, but during in-loop rotation the per-iteration handler catches
any error from the loop body and the loop continues with the state it had
before the iteration. -/
theorem C7_finalize_error_propagation (env : RecorderEnv) (cd : ℚ)
    (now : DateTime) (s : RecorderState)
    (hrec : s.recording = true) (hopen : s.writerOpen = true)
    (hfail : env.releaseFails = true) :
    recorderStop env now s = .error .releaseFailed ∧
    (∀ r, recordingIterBody env cd now s = .error r →
      recordingIter env cd now s = (s, none)) := by
  constructor
  · simp [recorderStop, finalizeCurrentChunk, hrec, hopen, hfail]
  · intro r hr
    unfold recordingIter
    by_cases hg : env.frameIntervalElapsed = false
    · simp [hg]
    · rw [if_neg hg]
      by_cases hp : s.paused
      · simp [hp]
      · simp [hp, hr]

/-- Witness for the amended C7 at the concrete failing state. -/
theorem C7_finalize_error_propagation_witness :
    c7state.recording = true ∧ c7state.writerOpen = true ∧
    c7env.releaseFails = true ∧
    recorderStop c7env c7now c7state = .error .releaseFailed := by
  refine ⟨rfl, rfl, rfl, ?_⟩
  exact (C7_finalize_error_propagation c7env 60 c7now c7state rfl rfl rfl).1

/-- Witness for C5: a pool with one idle connection hands it back, and a
saturated two-connection pool with no releases raises `PoolExhausted`. -/
theorem C5_acquire_semantics_witness :
    ((⟨[⟨7, 0, 0, false⟩], false, 8⟩ : PoolState).closed = false ∧
      (∃ c ∈ (⟨[⟨7, 0, 0, false⟩], false, 8⟩ : PoolState).pool, c.inUse = false) ∧
      (∃ pool2 c, c ∈ (⟨[⟨7, 0, 0, false⟩], false, 8⟩ : PoolState).pool ∧
        c.inUse = false ∧
        acquire { maxSize := 2, timeoutTicks := 3 } (fun _ s => s) 0
            ⟨[⟨7, 0, 0, false⟩], false, 8⟩ =
          .ok ({ (⟨[⟨7, 0, 0, false⟩], false, 8⟩ : PoolState) with pool := pool2 },
               c.connId))) ∧
    acquire { maxSize := 2, timeoutTicks := 3 } (fun _ s => s) 0
        ⟨[⟨1, 0, 0, true⟩, ⟨2, 0, 0, true⟩], false, 3⟩ = .error .poolExhausted := by
  refine ⟨⟨rfl, ⟨⟨7, 0, 0, false⟩, by simp, rfl⟩, ?_⟩, ?_⟩
  · exact (C5_acquire_semantics { maxSize := 2, timeoutTicks := 3 } (fun _ s => s) 0
      ⟨[⟨7, 0, 0, false⟩], false, 8⟩).2.1 rfl ⟨⟨7, 0, 0, false⟩, by simp, rfl⟩
  · exact (C5_acquire_semantics { maxSize := 2, timeoutTicks := 3 } (fun _ s => s) 0
      ⟨[⟨1, 0, 0, true⟩, ⟨2, 0, 0, true⟩], false, 3⟩).2.2.2.1 rfl
      ⟨by decide, by decide⟩ (fun t s' h => h)

/-- **C4 counterexample**: "hello" is malformed — it contains no JSON
object at all (no brace-delimited region, and `json.loads` rejects it
outright) — yet transcribe response parsing returns zero observations
rather than the claimed single fallback observation. -/
theorem C4_counterexample :
    jsonExtract c4reply = none ∧
    jsonLoads c4reply = .error () ∧
    parseObservationsFromText c4reply 5 = .ok [] := by
  refine ⟨by decide, rfl, ?_⟩
  have h : jsonExtract c4reply = none := by decide
  simp [parseObservationsFromText, h]

/-- **C4 amended**: the single fallback observation `[0, duration]` with
the raw reply truncated to 500 characters is produced exactly when the
reply contains a brace-delimited region that fails `json.loads`; a reply
with no brace-delimited region yields zero observations. -/
theorem C4_transcribe_fallback (text : String) (d : ℚ) :
    (∀ extract, jsonExtract text = some extract →
      jsonLoads extract = .error () →
      parseObservationsFromText text d =
        .ok [{ start_ts := 0, end_ts := d,
               text := Json.str (String.mk (text.data.take 500)) }]) ∧
    (jsonExtract text = none → parseObservationsFromText text d = .ok []) := by
  constructor
  · intro extract hex hload
    simp [parseObservationsFromText, hex, hload]
  · intro hex
    simp [parseObservationsFromText, hex]

/-- Witness for the amended C4: a reply whose brace region is not JSON
produces the fallback, and a brace-free reply produces nothing. -/
theorem C4_transcribe_fallback_witness :
    jsonExtract c4replyBad = some ("\x7b not json \x7d") ∧
    jsonLoads ("\x7b not json \x7d") = .error () ∧
    parseObservationsFromText c4replyBad 7 =
      .ok [{ start_ts := 0, end_ts := 7,
             text := Json.str (String.mk (c4replyBad.data.take 500)) }] ∧
    jsonExtract c4reply = none ∧
    parseObservationsFromText c4reply 7 = .ok [] := by
  refine ⟨by decide, rfl, ?_, by decide, ?_⟩
  · exact (C4_transcribe_fallback c4replyBad 7).1 ("\x7b not json \x7d")
      (by decide) rfl
  · exact (C4_transcribe_fallback c4reply 7).2 (by decide)

/-- **C8 counterexample**: the reply's top-level JSON parses and its first
card entry is well-formed (alone it yields one card), yet the malformed
second entry makes the whole parse raise `AttributeError`, and
`generate_activity_cards` catches it and returns no cards at all — the
well-formed entry is not preserved, and one malformed entry is fatal to
the whole response. -/
theorem C8_counterexample :
    jsonLoads c8resp =
      .ok (Json.obj [("cards", Json.arr [Json.obj [("title", Json.str "ok")],
        Json.num 42])]) ∧
    parseCardsFromText c8respGood (some c8start) = .ok [c8card] ∧
    parseCardsFromText c8resp (some c8start) = .error PyErr.attributeError ∧
    generateActivityCards { synthesizeHttp := .ok c8resp } [c8obs] []
      (some c8start) = [] := by
  refine ⟨rfl, rfl, rfl, rfl⟩

/-- **C8 amended**: a malformed entry in the `cards` list is fatal to the
whole response: the per-entry loop has no handler (only `JSONDecodeError`
is caught), so the error propagates out of `_parse_cards_from_text`,
`generate_activity_cards` catches it, and the empty list is returned —
dropping the well-formed entries of the same response too. -/
theorem C8_malformed_entry_fatal (env : ProviderEnv) (text : String)
    (T : Option DateTime) (obs : List Observation) (ctx : List ActivityCard)
    (e : PyErr)
    (hhttp : env.synthesizeHttp = .ok text)
    (hobs : obs.isEmpty = false)
    (hparse : parseCardsFromText text T = .error e) :
    generateActivityCards env obs ctx T = [] := by
  simp [generateActivityCards, hobs, hhttp, hparse]

/-- Witness for the amended C8 at the concrete mixed reply. -/
theorem C8_malformed_entry_fatal_witness :
    ({ synthesizeHttp := .ok c8resp : ProviderEnv }).synthesizeHttp =
      .ok c8resp ∧
    ([c8obs] : List Observation).isEmpty = false ∧
    parseCardsFromText c8resp (some c8start) = .error PyErr.attributeError ∧
    generateActivityCards { synthesizeHttp := .ok c8resp } [c8obs] []
      (some c8start) = [] := by
  refine ⟨rfl, rfl, rfl, ?_⟩
  exact C8_malformed_entry_fatal { synthesizeHttp := .ok c8resp } c8resp
    (some c8start) [c8obs] [] PyErr.attributeError rfl rfl rfl

lemma updRow_id (cid : Nat) (status : ChunkStatus) (bid : Option Nat)
    (row : StoredChunk) : (updRow cid status bid row).id = row.id := by
  by_cases h : row.id = cid <;> cases bid <;> simp [updRow, h]

lemma applyMarks_id (status : ChunkStatus) (bid : Option Nat)
    (l : List VideoChunk) (row : StoredChunk) :
    (applyMarks status bid l row).id = row.id := by
  induction l generalizing row with
  | nil => rfl
  | cons c rest ih =>
    simp only [applyMarks]
    by_cases hc : chunkIdTruthy c.id
    · rw [if_pos hc, ih, updRow_id]
    · rw [if_neg hc, ih]

lemma applyMarks_untouched (status : ChunkStatus) (bid : Option Nat)
    (l : List VideoChunk) (row : StoredChunk)
    (h : ∀ c ∈ l, chunkIdTruthy c.id → c.id.getD 0 ≠ row.id) :
    applyMarks status bid l row = row := by
  induction l with
  | nil => rfl
  | cons c rest ih =>
    simp only [applyMarks]
    have hstep : (if chunkIdTruthy c.id then
        updRow (c.id.getD 0) status bid row else row) = row := by
      by_cases hc : chunkIdTruthy c.id
      · rw [if_pos hc]
        have hne : row.id ≠ c.id.getD 0 :=
          fun he => h c (List.mem_cons_self c rest) hc he.symm
        simp [updRow, hne]
      · rw [if_neg hc]
    rw [hstep]
    exact ih (fun c2 hc2 => h c2 (List.mem_cons_of_mem _ hc2))

lemma applyMarks_status_of_match (status : ChunkStatus) (bid : Option Nat)
    (l : List VideoChunk) (row : StoredChunk)
    (h : ∃ c ∈ l, chunkIdTruthy c.id ∧ c.id.getD 0 = row.id) :
    (applyMarks status bid l row).status = status := by
  induction l generalizing row with
  | nil => rcases h with ⟨c, hc, _⟩; cases hc
  | cons c rest ih =>
    simp only [applyMarks]
    by_cases hrest : ∃ c2 ∈ rest, chunkIdTruthy c2.id ∧ c2.id.getD 0 = row.id
    · apply ih
      rcases hrest with ⟨c2, hc2, ht2, hid2⟩
      refine ⟨c2, hc2, ht2, ?_⟩
      rw [hid2]
      by_cases hc : chunkIdTruthy c.id
      · rw [if_pos hc, updRow_id]
      · rw [if_neg hc]
    · rcases h with ⟨c3, hc3, ht3, hid3⟩
      rcases List.mem_cons.mp hc3 with rfl | hmem
      · rw [if_pos ht3]
        have hrow : (updRow (c3.id.getD 0) status bid row).status = status := by
          cases bid <;> simp [updRow, hid3]
        have hid : (updRow (c3.id.getD 0) status bid row).id = row.id :=
          updRow_id _ _ _ _
        rw [applyMarks_untouched]
        · exact hrow
        · intro c2 hc2 ht2 he
          exact hrest ⟨c2, hc2, ht2, by rw [he, hid]⟩
      · exact absurd ⟨c3, hmem, ht3, hid3⟩ hrest

lemma markChunks_chunks (status : ChunkStatus) (bid : Option Nat)
    (l : List VideoChunk) (st : Store) :
    (markChunks status bid l st).chunks = st.chunks.map (applyMarks status bid l) := by
  induction l generalizing st with
  | nil =>
    simp only [markChunks, List.foldl_nil]
    have : applyMarks status bid [] = fun row => row := by
      funext row; rfl
    rw [this, List.map_id']
  | cons c rest ih =>
    simp only [markChunks, List.foldl_cons] at ih ⊢
    by_cases hc : chunkIdTruthy c.id
    · rw [if_pos hc, ih]
      simp only [Store.updateChunkStatus, List.map_map]
      congr 1
      funext row
      simp [applyMarks, Function.comp, hc]
    · rw [if_neg hc, ih]
      congr 1
      funext row
      simp [applyMarks, hc]

lemma markChunks_batches (status : ChunkStatus) (bid : Option Nat)
    (l : List VideoChunk) (st : Store) :
    (markChunks status bid l st).batches = st.batches := by
  induction l generalizing st with
  | nil => rfl
  | cons c rest ih =>
    simp only [markChunks, List.foldl_cons] at ih ⊢
    by_cases hc : chunkIdTruthy c.id
    · rw [if_pos hc, ih]
      simp [Store.updateChunkStatus]
    · rw [if_neg hc, ih]

lemma mem_insertSorted {α : Type _} (le : α → α → Bool) (x a : α)
    (l : List α) : a ∈ insertSorted le x l ↔ a = x ∨ a ∈ l := by
  induction l with
  | nil => simp [insertSorted]
  | cons y ys ih =>
    by_cases hle : le x y
    · simp [insertSorted, hle]
    · simp only [insertSorted, if_neg hle, List.mem_cons, ih]
      tauto

lemma mem_insertionSortBy {α : Type _} (le : α → α → Bool) (a : α)
    (l : List α) : a ∈ insertionSortBy le l ↔ a ∈ l := by
  induction l with
  | nil => simp [insertionSortBy]
  | cons x xs ih =>
    simp [insertionSortBy, mem_insertSorted, ih]

lemma getPendingChunks_status (st : Store) (limit : Nat) (v : VideoChunk)
    (h : v ∈ st.getPendingChunks limit) : v.status = ChunkStatus.pending := by
  unfold Store.getPendingChunks at h
  rcases List.mem_map.mp h with ⟨row, hrow, rfl⟩
  have h2 := (mem_insertionSortBy _ _ _).mp (List.take_subset _ _ hrow)
  have h3 := List.mem_filter.mp h2
  have h4 : row.status = ChunkStatus.pending := by
    simpa using h3.2
  simpa [StoredChunk.toVideoChunk] using h4

lemma accumStep_fail (env : ProviderEnv) (bstart : Option DateTime)
    (acc : List Observation) (c : VideoChunk)
    (hf : env.transcribeHttp c.file_path = .error ()) :
    accumStep env bstart acc c = .ok acc := by
  unfold accumStep transcribeVideo
  by_cases hfe : env.fileExists c.file_path = false
  · simp [hfe, Pure.pure, Except.pure]
  · have hfe2 : env.fileExists c.file_path = true := by
      cases hval : env.fileExists c.file_path
      · exact absurd hval hfe
      · rfl
    by_cases hfr : env.frameCount c.file_path = 0
    · simp [hfe2, hfr, Bind.bind, Except.bind, Pure.pure, Except.pure,
        shiftObservations]
      cases c.start_time <;> cases bstart <;> simp
    · simp [hfe2, hfr, hf, Bind.bind, Except.bind, Pure.pure, Except.pure,
        shiftObservations]
      cases c.start_time <;> cases bstart <;> simp

lemma accumulate_fail (env : ProviderEnv) (bstart : Option DateTime)
    (chunks : List VideoChunk)
    (hf : ∀ c ∈ chunks, env.transcribeHttp c.file_path = .error ()) :
    accumulateObservations env bstart chunks = .ok [] := by
  suffices hgen : ∀ acc, chunks.foldlM (accumStep env bstart) acc = .ok acc by
    exact hgen []
  induction chunks with
  | nil => intro acc; rfl
  | cons c rest ih =>
    intro acc
    have h1 := accumStep_fail env bstart acc c (hf c (List.mem_cons_self c rest))
    simp only [List.foldlM_cons, h1, Bind.bind, Except.bind]
    exact ih (fun c2 hc2 => hf c2 (List.mem_cons_of_mem _ hc2)) acc

lemma processBatch_empty_acc (env : ProviderEnv) (st0 : Store)
    (chunks : List VideoChunk) (c0 : VideoChunk)
    (hne : chunks.isEmpty = false) (hhead : chunks.head? = some c0)
    (hacc : accumulateObservations env c0.start_time chunks = .ok []) :
    processBatch env st0 chunks =
      (((markChunks ChunkStatus.processing (some st0.nextBatchId) chunks
            (st0.createBatch (batchRecord chunks)).1).updateBatch
          st0.nextBatchId BatchStatus.processing).updateBatch
        st0.nextBatchId BatchStatus.completed (some "[]"), none) := by
  have hstart : (batchRecord chunks).start_time = c0.start_time := by
    simp [batchRecord, hhead]
  have hPBT : ∀ st : Store,
      processBatchTry env st0.nextBatchId (batchRecord chunks).start_time chunks st =
        .ok (st.updateBatch st0.nextBatchId BatchStatus.completed (some "[]")) := by
    intro st
    rw [hstart]
    simp [processBatchTry, hacc, Bind.bind, Except.bind, Pure.pure, Except.pure]
  unfold processBatch
  rw [if_neg (by simp [hne])]
  simp only [Store.createBatch, hPBT]

/-- **C10**: a batch whose segments yield no observations is marked
Completed with the empty observation list `"[]"` and `_process_batch`
returns without touching its segments' statuses again: they remain
Processing — never Completed or Failed — and, being no longer Pending,
they can never appear in a later `get_pending_chunks` scan (which returns
only Pending rows). -/
theorem C10_empty_batch_frame (env : ProviderEnv) (st0 : Store)
    (chunks : List VideoChunk) (c0 : VideoChunk)
    (hne : chunks.isEmpty = false) (hhead : chunks.head? = some c0)
    (hacc : accumulateObservations env c0.start_time chunks = .ok []) :
    (processBatch env st0 chunks).2 = none ∧
    (∃ b ∈ (processBatch env st0 chunks).1.batches,
      b.id = st0.nextBatchId ∧ b.status = BatchStatus.completed ∧
      b.observations_json = "[]") ∧
    (∀ row ∈ (processBatch env st0 chunks).1.chunks,
      (∃ c ∈ chunks, chunkIdTruthy c.id ∧ c.id.getD 0 = row.id) →
      row.status = ChunkStatus.processing) ∧
    (∀ (limit : Nat) (v : VideoChunk),
      v ∈ (processBatch env st0 chunks).1.getPendingChunks limit →
      v.status = ChunkStatus.pending) := by
  rw [processBatch_empty_acc env st0 chunks c0 hne hhead hacc]
  set row0 : StoredBatch :=
    { id := st0.nextBatchId, chunk_ids := (batchRecord chunks).chunk_ids,
      start_time := (batchRecord chunks).start_time,
      end_time := (batchRecord chunks).end_time,
      status := BatchStatus.pending, observations_json := "[]",
      error_message := none } with hrow0
  have h1 : batchUpd st0.nextBatchId BatchStatus.processing none none row0 =
      { row0 with status := BatchStatus.processing } := by
    simp [batchUpd, hrow0]
  have h2 : batchUpd st0.nextBatchId BatchStatus.completed (some "[]") none
      { row0 with status := BatchStatus.processing } =
      { row0 with
          status := BatchStatus.completed,
          observations_json := "[]" } := by
    simp [batchUpd, hrow0]
  refine ⟨rfl, ?_, ?_, ?_⟩
  · refine ⟨{ row0 with
                status := BatchStatus.completed,
                observations_json := "[]" }, ?_, rfl, rfl, rfl⟩
    simp only [Store.updateBatch, markChunks_batches, Store.createBatch]
    refine List.mem_map.mpr
      ⟨{ row0 with status := BatchStatus.processing },
       List.mem_map.mpr ⟨row0, ?_, h1⟩, h2⟩
    refine List.mem_append_right _ ?_
    simp [hrow0, batchRecord]
  · intro row hrow hmatch
    have hchunks : (((markChunks ChunkStatus.processing (some st0.nextBatchId)
        chunks (st0.createBatch (batchRecord chunks)).1).updateBatch
          st0.nextBatchId BatchStatus.processing).updateBatch
        st0.nextBatchId BatchStatus.completed (some "[]")).chunks =
        st0.chunks.map (applyMarks ChunkStatus.processing (some st0.nextBatchId) chunks) := by
      simp only [Store.updateBatch]
      rw [markChunks_chunks]
      rfl
    rw [hchunks] at hrow
    rcases List.mem_map.mp hrow with ⟨row0c, _hrow0c, rfl⟩
    apply applyMarks_status_of_match
    rcases hmatch with ⟨c, hc, ht, hid⟩
    exact ⟨c, hc, ht, by rw [hid, applyMarks_id]⟩
  · intro limit v hv
    exact getPendingChunks_status _ _ _ hv

/-- Witness for C10 at the one-segment batch whose backend calls all
fail: the accumulator is empty, the batch completes with `"[]"`, and no
exception escapes. -/
theorem C10_empty_batch_frame_witness :
    ([pbChunk] : List VideoChunk).isEmpty = false ∧
    ([pbChunk] : List VideoChunk).head? = some pbChunk ∧
    accumulateObservations pbEnvFail pbChunk.start_time [pbChunk] = .ok [] ∧
    (processBatch pbEnvFail pbStore [pbChunk]).2 = none ∧
    (∃ b ∈ (processBatch pbEnvFail pbStore [pbChunk]).1.batches,
      b.id = pbStore.nextBatchId ∧ b.status = BatchStatus.completed ∧
      b.observations_json = "[]") := by
  have h := C10_empty_batch_frame pbEnvFail pbStore [pbChunk] pbChunk rfl rfl rfl
  exact ⟨rfl, rfl, rfl, h.1, h.2.1⟩

/-- **C1 counterexample**: one batch, one segment, the backend HTTP call
fails — yet no error reaches the Scheduler (`_process_batch` returns
normally), the batch ends Completed (not Failed) with empty observations,
and the segment row ends Processing (not Failed). -/
theorem C1_counterexample :
    processBatch pbEnvFail pbStore [pbChunk] = (pbStoreAfter, none) := rfl

/-- **C1 amended**: a backend HTTP failure during transcribe or
synthesize is caught inside the provider, which returns an empty result;
no exception reaches the Scheduler's per-batch handler.  A batch all of
whose transcribe calls fail is recorded Completed with empty observations
`"[]"` (appended after the untouched pre-existing batch rows, which keep
their exact contents), and its segments remain Processing, never
Failed. -/
theorem C1_backend_failure_swallowed (env : ProviderEnv) (st0 : Store)
    (chunks : List VideoChunk) (c0 : VideoChunk)
    (hne : chunks.isEmpty = false) (hhead : chunks.head? = some c0)
    (hfail : ∀ c ∈ chunks, env.transcribeHttp c.file_path = .error ())
    (hfresh : ∀ b ∈ st0.batches, b.id ≠ st0.nextBatchId) :
    (processBatch env st0 chunks).2 = none ∧
    (processBatch env st0 chunks).1.batches =
      st0.batches ++
        [{ id := st0.nextBatchId, chunk_ids := (batchRecord chunks).chunk_ids,
           start_time := (batchRecord chunks).start_time,
           end_time := (batchRecord chunks).end_time,
           status := BatchStatus.completed, observations_json := "[]",
           error_message := none }] ∧
    (∀ row ∈ (processBatch env st0 chunks).1.chunks,
      (∃ c ∈ chunks, chunkIdTruthy c.id ∧ c.id.getD 0 = row.id) →
      row.status = ChunkStatus.processing) := by
  have hacc := accumulate_fail env c0.start_time chunks hfail
  rw [processBatch_empty_acc env st0 chunks c0 hne hhead hacc]
  refine ⟨rfl, ?_, ?_⟩
  · simp only [Store.updateBatch, markChunks_batches, Store.createBatch,
      List.map_append]
    have hold : ∀ f g : StoredBatch → StoredBatch,
        (∀ b, b.id ≠ st0.nextBatchId → f b = b) →
        (∀ b, b.id ≠ st0.nextBatchId → g b = b) →
        (st0.batches.map f).map g = st0.batches := by
      intro f g hfid hgid
      rw [List.map_map]
      have : ∀ b ∈ st0.batches, (g ∘ f) b = b := by
        intro b hb
        have hne2 := hfresh b hb
        simp [Function.comp, hfid b hne2, hgid b hne2]
      calc (st0.batches.map (g ∘ f)) = st0.batches.map id := List.map_congr_left this
        _ = st0.batches := List.map_id st0.batches
    rw [hold]
    · congr 1
      simp [batchUpd, batchRecord]
    · intro b hb
      simp [batchUpd, hb]
    · intro b hb
      simp [batchUpd, hb]
  · intro row hrow hmatch
    have hchunks : (((markChunks ChunkStatus.processing (some st0.nextBatchId)
        chunks (st0.createBatch (batchRecord chunks)).1).updateBatch
          st0.nextBatchId BatchStatus.processing).updateBatch
        st0.nextBatchId BatchStatus.completed (some "[]")).chunks =
        st0.chunks.map (applyMarks ChunkStatus.processing (some st0.nextBatchId) chunks) := by
      simp only [Store.updateBatch]
      rw [markChunks_chunks]
      rfl
    rw [hchunks] at hrow
    rcases List.mem_map.mp hrow with ⟨row0c, _hrow0c, rfl⟩
    apply applyMarks_status_of_match
    rcases hmatch with ⟨c, hc, ht, hid⟩
    exact ⟨c, hc, ht, by rw [hid, applyMarks_id]⟩

/-- Witness for the amended C1 at the one-segment, all-calls-fail
instance. -/
theorem C1_backend_failure_swallowed_witness :
    (∀ c ∈ ([pbChunk] : List VideoChunk),
      pbEnvFail.transcribeHttp c.file_path = .error ()) ∧
    (∀ b ∈ pbStore.batches, b.id ≠ pbStore.nextBatchId) ∧
    (processBatch pbEnvFail pbStore [pbChunk]).2 = none ∧
    (processBatch pbEnvFail pbStore [pbChunk]).1.batches =
      pbStore.batches ++
        [{ id := pbStore.nextBatchId,
           chunk_ids := (batchRecord [pbChunk]).chunk_ids,
           start_time := (batchRecord [pbChunk]).start_time,
           end_time := (batchRecord [pbChunk]).end_time,
           status := BatchStatus.completed, observations_json := "[]",
           error_message := none }] := by
  have h := C1_backend_failure_swallowed pbEnvFail pbStore [pbChunk] pbChunk
    rfl rfl (fun c _ => rfl) (by simp [pbStore])
  exact ⟨fun c _ => rfl, by simp [pbStore], h.1, h.2.1⟩

lemma except_bind_ok {α β : Type _} (e : Except PyErr α)
    (k : α → Except PyErr β) (b : β) :
    (e >>= k) = .ok b ↔ ∃ a, e = .ok a ∧ k a = .ok b := by
  cases e <;> simp [Bind.bind, Except.bind]

lemma fixCardTimes_id (T : Option DateTime) (card : ActivityCard)
    (h1 : card.relative_start = none) (h2 : card.relative_end = none) :
    fixCardTimes T card = card := by
  cases T <;> simp [fixCardTimes, h1, h2]

lemma parseCardEntry_obj_ok (T : Option DateTime) (l : List (String × Json))
    (card : ActivityCard) (h : parseCardEntry T (Json.obj l) = .ok card) :
    card.relative_start = none ∧ card.relative_end = none ∧
    card.start_time =
      (if ((lookupLast "start_time" l).getD Json.null).truthy then
        (match pyGetItem (Json.obj l) "start_time" with
         | .ok (.str s) =>
           (match fromIso (s.replace "Z" "+00:00") with
            | some dt => some dt
            | none => T)
         | _ => T)
      else T) ∧
    card.end_time =
      (if ((lookupLast "end_time" l).getD Json.null).truthy then
        (match pyGetItem (Json.obj l) "end_time" with
         | .ok (.str s) => fromIso (s.replace "Z" "+00:00")
         | _ => none)
      else none) := by
  unfold parseCardEntry at h
  rw [except_bind_ok] at h
  obtain ⟨stJ, hstJ, h⟩ := h
  rw [except_bind_ok] at h
  obtain ⟨enJ, henJ, h⟩ := h
  rw [except_bind_ok] at h
  obtain ⟨appsJ, happsJ, h⟩ := h
  rw [except_bind_ok] at h
  obtain ⟨apps, happs, h⟩ := h
  rw [except_bind_ok] at h
  obtain ⟨appSites, happSites, h⟩ := h
  rw [except_bind_ok] at h
  obtain ⟨distsJ, hdistsJ, h⟩ := h
  rw [except_bind_ok] at h
  obtain ⟨dists, hdists, h⟩ := h
  rw [except_bind_ok] at h
  obtain ⟨distractions, hdistractions, h⟩ := h
  rw [except_bind_ok] at h
  obtain ⟨cat, hcat, h⟩ := h
  rw [except_bind_ok] at h
  obtain ⟨ttl, httl, h⟩ := h
  rw [except_bind_ok] at h
  obtain ⟨smr, hsmr, h⟩ := h
  rw [except_bind_ok] at h
  obtain ⟨scJ, hscJ, h⟩ := h
  rw [except_bind_ok] at h
  obtain ⟨score, hscore, h⟩ := h
  simp only [pyGet] at hstJ henJ
  have hstJ2 : stJ = (lookupLast "start_time" l).getD Json.null :=
    (Except.ok.inj hstJ).symm
  have henJ2 : enJ = (lookupLast "end_time" l).getD Json.null :=
    (Except.ok.inj henJ).symm
  have hcard : card =
      { category := cat, title := ttl, summary := smr,
        start_time :=
          if stJ.truthy then
            match pyGetItem (Json.obj l) "start_time" with
            | .ok (.str s) =>
              (match fromIso (s.replace "Z" "+00:00") with
               | some dt => some dt
               | none => T)
            | _ => T
          else T,
        end_time :=
          if enJ.truthy then
            match pyGetItem (Json.obj l) "end_time" with
            | .ok (.str s) => fromIso (s.replace "Z" "+00:00")
            | _ => none
          else none,
        app_sites := appSites, distractions := distractions,
        productivity_score := score } := by
    have := h
    simp only [Pure.pure, Except.pure] at this
    exact (Except.ok.inj this).symm
  subst hstJ2 henJ2
  rw [hcard]
  exact ⟨rfl, rfl, rfl, rfl⟩

/-- **C9 counterexample**: a well-formed synthesize reply whose card
carries neither `start_time` nor `end_time`.  The parser substitutes the
batch start itself (not batch start plus a relative offset) for the
missing start, leaves the end unset, the scheduler's relative-offset
fix-up is the identity (parsed cards carry no relative offsets), and the
persisted row stores the batch start as-is and `NULL` for the end. -/
theorem C9_counterexample :
    parseCardsFromText c8respGood (some c8start) = .ok [c8card] ∧
    c8card.start_time = some c8start ∧ c8card.end_time = none ∧
    c8card.relative_start = none ∧ c8card.relative_end = none ∧
    fixCardTimes (some c8start) c8card = c8card ∧
    (Store.saveCard {} c8card (some 1)).1.cards =
      [{ id := 1, batch_id := some 1, category := Json.str "其他",
         title := Json.str "ok", summary := Json.str "",
         start_time_text := some ("2024-01-01T10:00:00"),
         end_time_text := none, app_sites_json := Json.arr [],
         distractions_json := Json.arr [], productivity_score := 0 }] := by
  exact ⟨rfl, rfl, rfl, rfl, rfl, rfl, rfl⟩

/-- **C9 amended**: a parsed card never carries a relative offset, so the
scheduler's `batch.start + relative offset` derivation before `save_card`
never fires (the fix-up is the identity on every parsed card); instead,
the parser itself substitutes the batch start time for a missing or
unparseable `start_time`, and leaves a missing or unparseable `end_time`
unset, which `save_card` persists as `NULL`. -/
theorem C9_time_fallback :
    (∀ (T : Option DateTime) (item : Json) (card : ActivityCard),
      parseCardEntry T item = .ok card →
      card.relative_start = none ∧ card.relative_end = none ∧
      fixCardTimes T card = card) ∧
    (∀ (T : Option DateTime) (l : List (String × Json)) (card : ActivityCard),
      parseCardEntry T (Json.obj l) = .ok card →
      ((lookupLast "start_time" l).getD Json.null).truthy = false →
      card.start_time = T) ∧
    (∀ (T : Option DateTime) (l : List (String × Json)) (card : ActivityCard),
      parseCardEntry T (Json.obj l) = .ok card →
      ((lookupLast "end_time" l).getD Json.null).truthy = false →
      card.end_time = none) := by
  have hobj : ∀ (T : Option DateTime) (item : Json) (card : ActivityCard),
      parseCardEntry T item = .ok card → ∃ l, item = Json.obj l := by
    intro T item card h
    cases item with
    | obj l => exact ⟨l, rfl⟩
    | null =>
      unfold parseCardEntry at h
      rw [except_bind_ok] at h
      obtain ⟨stJ, hstJ, _⟩ := h
      simp [pyGet] at hstJ
    | bool b =>
      unfold parseCardEntry at h
      rw [except_bind_ok] at h
      obtain ⟨stJ, hstJ, _⟩ := h
      simp [pyGet] at hstJ
    | num q =>
      unfold parseCardEntry at h
      rw [except_bind_ok] at h
      obtain ⟨stJ, hstJ, _⟩ := h
      simp [pyGet] at hstJ
    | str s =>
      unfold parseCardEntry at h
      rw [except_bind_ok] at h
      obtain ⟨stJ, hstJ, _⟩ := h
      simp [pyGet] at hstJ
    | arr xs =>
      unfold parseCardEntry at h
      rw [except_bind_ok] at h
      obtain ⟨stJ, hstJ, _⟩ := h
      simp [pyGet] at hstJ
  refine ⟨?_, ?_, ?_⟩
  · intro T item card h
    obtain ⟨l, rfl⟩ := hobj T item card h
    obtain ⟨h1, h2, _, _⟩ := parseCardEntry_obj_ok T l card h
    exact ⟨h1, h2, fixCardTimes_id T card h1 h2⟩
  · intro T l card h htr
    obtain ⟨_, _, h3, _⟩ := parseCardEntry_obj_ok T l card h
    rw [h3, if_neg (by simp [htr])]
  · intro T l card h htr
    obtain ⟨_, _, _, h4⟩ := parseCardEntry_obj_ok T l card h
    rw [h4, if_neg (by simp [htr])]

/-- Witness for the amended C9: the card of the no-timestamps reply has
no relative offsets, an identity fix-up, start equal to the batch start,
and no end. -/
theorem C9_time_fallback_witness :
    parseCardEntry (some c8start) (Json.obj [("title", Json.str "ok")]) =
      .ok c8card ∧
    ((lookupLast "start_time" [("title", Json.str "ok")]).getD
      Json.null).truthy = false ∧
    ((lookupLast "end_time" [("title", Json.str "ok")]).getD
      Json.null).truthy = false ∧
    (c8card.relative_start = none ∧ c8card.relative_end = none ∧
      fixCardTimes (some c8start) c8card = c8card) ∧
    c8card.start_time = some c8start ∧
    c8card.end_time = none := by
  refine ⟨rfl, rfl, rfl,
    C9_time_fallback.1 (some c8start) (Json.obj [("title", Json.str "ok")])
      c8card rfl, ?_, ?_⟩
  · exact C9_time_fallback.2.1 (some c8start) [("title", Json.str "ok")]
      c8card rfl rfl
  · exact C9_time_fallback.2.2 (some c8start) [("title", Json.str "ok")]
      c8card rfl rfl

lemma lexLe_refl (s : List Char) : lexLe s s = true := by
  induction s with
  | nil => rfl
  | cons a t ih => simp [lexLe, ih]

lemma lexLe_append_left (p s t : List Char) :
    lexLe (p ++ s) (p ++ t) = lexLe s t := by
  induction p with
  | nil => rfl
  | cons a q ih => simp [lexLe, ih]

lemma lexLe_append_of_cmp_lt (s t u v : List Char)
    (h : lexCmpSeg s t = .lt) : lexLe (s ++ u) (t ++ v) = true := by
  induction s generalizing t with
  | nil => cases t <;> simp [lexCmpSeg] at h
  | cons a s2 ih =>
    cases t with
    | nil => simp [lexCmpSeg] at h
    | cons b t2 =>
      by_cases hab : a < b
      · simp [lexLe, hab]
      · by_cases hba : b < a
        · simp [lexCmpSeg, hab, hba] at h
        · have hEq : a = b := le_antisymm (not_lt.mp hba) (not_lt.mp hab)
          subst hEq
          have h2 : lexCmpSeg s2 t2 = .lt := by
            simpa [lexCmpSeg, hab] using h
          simp [lexLe, ih t2 h2]

lemma lexCmpSeg_le_of_forall2 (s t : List Char)
    (h : List.Forall₂ (· ≤ ·) s t) : lexCmpSeg s t = .lt ∨ s = t := by
  induction s generalizing t with
  | nil =>
    cases h
    exact Or.inr rfl
  | cons a s2 ih =>
    cases t with
    | nil => cases h
    | cons b t2 =>
      cases h with
      | cons hab htail =>
        by_cases hlt : a < b
        · exact Or.inl (by simp [lexCmpSeg, hlt])
        · have hEq : a = b := le_antisymm hab (not_lt.mp hlt)
          subst hEq
          rcases ih t2 htail with h1 | h1
          · exact Or.inl (by simp [lexCmpSeg, h1])
          · exact Or.inr (by rw [h1])

lemma lexLe_of_cmp (s t : List Char) (h : lexCmpSeg s t = .lt ∨ s = t) :
    lexLe s t = true := by
  rcases h with h | rfl
  · simpa using lexLe_append_of_cmp_lt s t [] [] h
  · exact lexLe_refl s

lemma seg_chain (s t u v : List Char)
    (hseg : lexCmpSeg s t = .lt ∨ s = t)
    (hrec : s = t → lexLe u v = true) :
    lexLe (s ++ u) (t ++ v) = true := by
  rcases hseg with h | h
  · exact lexLe_append_of_cmp_lt s t u v h
  · subst h
    rw [lexLe_append_left]
    exact hrec rfl

lemma digit_bounds (m : Nat) :
    '0' ≤ Char.ofNat (48 + m % 10) ∧ Char.ofNat (48 + m % 10) ≤ '9' := by
  obtain ⟨k, hk, hkeq⟩ : ∃ k, k < 10 ∧ m % 10 = k :=
    ⟨m % 10, Nat.mod_lt _ (by norm_num), rfl⟩
  rw [hkeq]
  interval_cases k <;> exact ⟨by decide, by decide⟩

lemma forall2_00_le (n : Nat) :
    List.Forall₂ (· ≤ ·) ['0', '0'] (padChars 2 n) := by
  have hexp : padChars 2 n =
      [Char.ofNat (48 + n / 10 % 10), Char.ofNat (48 + n % 10)] := rfl
  rw [hexp]
  exact .cons (digit_bounds _).1 (.cons (digit_bounds _).1 .nil)

lemma pad6_le_nines (n : Nat) :
    List.Forall₂ (· ≤ ·) (padChars 6 n) (padChars 6 999999) := by
  have h9 : padChars 6 999999 = ['9', '9', '9', '9', '9', '9'] := by decide
  have hexp : padChars 6 n =
      [Char.ofNat (48 + n / 10 / 10 / 10 / 10 / 10 % 10),
       Char.ofNat (48 + n / 10 / 10 / 10 / 10 % 10),
       Char.ofNat (48 + n / 10 / 10 / 10 % 10),
       Char.ofNat (48 + n / 10 / 10 % 10),
       Char.ofNat (48 + n / 10 % 10),
       Char.ofNat (48 + n % 10)] := rfl
  rw [h9, hexp]
  exact .cons (digit_bounds _).2 (.cons (digit_bounds _).2
    (.cons (digit_bounds _).2 (.cons (digit_bounds _).2
      (.cons (digit_bounds _).2 (.cons (digit_bounds _).2 .nil)))))

lemma pad2_le_23 (h : Nat) (hh : h ≤ 23) :
    lexCmpSeg (padChars 2 h) (padChars 2 23) = .lt ∨
      padChars 2 h = padChars 2 23 := by
  interval_cases h <;> decide

lemma pad2_le_59 (m : Nat) (hm : m ≤ 59) :
    lexCmpSeg (padChars 2 m) (padChars 2 59) = .lt ∨
      padChars 2 m = padChars 2 59 := by
  interval_cases m <;> decide

lemma isoChars_decomp (t : DateTime) :
    t.isoChars =
      (padChars 4 t.year ++ ['-'] ++ padChars 2 t.month ++ ['-'] ++
        padChars 2 t.day ++ ['T']) ++
      (padChars 2 t.hour ++ ([':'] ++ (padChars 2 t.minute ++ ([':'] ++
        (padChars 2 t.second ++
          (if t.microsecond = 0 then []
           else ['.'] ++ padChars 6 t.microsecond)))))) := by
  simp [DateTime.isoChars, List.append_assoc]

lemma iso_start_le (d : DateTime) :
    lexLe d.startOfDay.isoChars d.isoChars = true := by
  rw [isoChars_decomp, isoChars_decomp]
  simp only [DateTime.startOfDay]
  rw [lexLe_append_left]
  have h00 : padChars 2 0 = ['0', '0'] := rfl
  simp only [h00, if_pos rfl]
  apply seg_chain _ _ _ _
    (lexCmpSeg_le_of_forall2 _ _ (forall2_00_le d.hour))
  intro _
  apply seg_chain [':'] [':'] _ _ (Or.inr rfl)
  intro _
  apply seg_chain _ _ _ _
    (lexCmpSeg_le_of_forall2 _ _ (forall2_00_le d.minute))
  intro _
  apply seg_chain [':'] [':'] _ _ (Or.inr rfl)
  intro _
  apply seg_chain _ _ _ _
    (lexCmpSeg_le_of_forall2 _ _ (forall2_00_le d.second))
  intro _
  rfl

lemma iso_le_end (d : DateTime) (hh : d.hour ≤ 23) (hmi : d.minute ≤ 59)
    (hs : d.second ≤ 59) :
    lexLe d.isoChars d.endOfDay.isoChars = true := by
  rw [isoChars_decomp, isoChars_decomp]
  simp only [DateTime.endOfDay]
  rw [lexLe_append_left]
  apply seg_chain _ _ _ _ (pad2_le_23 d.hour hh)
  intro _
  apply seg_chain [':'] [':'] _ _ (Or.inr rfl)
  intro _
  apply seg_chain _ _ _ _ (pad2_le_59 d.minute hmi)
  intro _
  apply seg_chain [':'] [':'] _ _ (Or.inr rfl)
  intro _
  apply seg_chain _ _ _ _ (pad2_le_59 d.second hs)
  intro _
  by_cases hus : d.microsecond = 0
  · rw [if_pos hus]
    rfl
  · rw [if_neg hus, if_neg (show ¬(999999 = 0) by norm_num)]
    apply seg_chain ['.'] ['.'] _ _ (Or.inr rfl)
    intro _
    exact lexLe_of_cmp _ _
      (lexCmpSeg_le_of_forall2 _ _ (pad6_le_nines d.microsecond))

lemma from_to_appSite (a : AppSite) : AppSite.from_dict a.to_dict = .ok a := rfl

lemma from_to_distraction (d : Distraction) :
    Distraction.from_dict d.to_dict = .ok d := rfl

lemma mapM_from_to_app (l : List AppSite) :
    (l.map AppSite.to_dict).mapM AppSite.from_dict = .ok l := by
  rw [← List.mapM'_eq_mapM]
  induction l with
  | nil => rfl
  | cons a rest ih =>
    simp [List.mapM', from_to_appSite, ih, Bind.bind, Except.bind,
      Pure.pure, Except.pure]

lemma mapM_from_to_dist (l : List Distraction) :
    (l.map Distraction.to_dict).mapM Distraction.from_dict = .ok l := by
  rw [← List.mapM'_eq_mapM]
  induction l with
  | nil => rfl
  | cons a rest ih =>
    simp [List.mapM', from_to_distraction, ih, Bind.bind, Except.bind,
      Pure.pure, Except.pure]

lemma mem_mapM_ok {α β : Type _} (f : α → Except PyErr β) (l : List α)
    (res : List β) (h : l.mapM f = .ok res) :
    ∀ x ∈ l, ∃ y ∈ res, f x = .ok y := by
  rw [← List.mapM'_eq_mapM] at h
  induction l generalizing res with
  | nil => intro x hx; cases hx
  | cons a as ih =>
    rw [show List.mapM' f (a :: as) =
        f a >>= fun b => List.mapM' f as >>= fun bs => pure (b :: bs) from rfl,
      except_bind_ok] at h
    obtain ⟨b, hb, h⟩ := h
    rw [except_bind_ok] at h
    obtain ⟨bs, hbs, h⟩ := h
    have hres : res = b :: bs := by
      have h2 := h
      simp only [Pure.pure, Except.pure] at h2
      exact (Except.ok.inj h2).symm
    subst hres
    intro x hx
    rcases List.mem_cons.mp hx with rfl | hx2
    · exact ⟨b, List.mem_cons_self _ _, hb⟩
    · rcases ih bs hbs x hx2 with ⟨y, hy, hfy⟩
      exact ⟨y, List.mem_cons_of_mem _ hy, hfy⟩

lemma rowToCard_fields (r : CardRow) (y : ActivityCard)
    (h : rowToCard r = .ok y) :
    y.category = r.category ∧ y.title = r.title ∧ y.summary = r.summary ∧
    y.productivity_score = r.productivity_score ∧
    (∀ sites : List AppSite,
      r.app_sites_json = Json.arr (sites.map AppSite.to_dict) →
      y.app_sites = sites) ∧
    (∀ dists : List Distraction,
      r.distractions_json = Json.arr (dists.map Distraction.to_dict) →
      y.distractions = dists) := by
  unfold rowToCard at h
  rw [except_bind_ok] at h
  obtain ⟨startT, _, h⟩ := h
  rw [except_bind_ok] at h
  obtain ⟨endT, _, h⟩ := h
  rw [except_bind_ok] at h
  obtain ⟨sitesJ, hsitesJ, h⟩ := h
  rw [except_bind_ok] at h
  obtain ⟨sites, hsites, h⟩ := h
  rw [except_bind_ok] at h
  obtain ⟨distsJ, hdistsJ, h⟩ := h
  rw [except_bind_ok] at h
  obtain ⟨dists, hdists, h⟩ := h
  have hy : y =
      { id := some r.id, category := r.category, title := r.title, summary := r.summary, start_time := startT, end_time := endT, app_sites := sites, distractions := dists, productivity_score := r.productivity_score } := by
    have h2 := h
    simp only [Pure.pure, Except.pure] at h2
    exact (Except.ok.inj h2).symm
  subst hy
  refine ⟨rfl, rfl, rfl, rfl, ?_, ?_⟩
  · intro sitesL hjson
    rw [hjson] at hsitesJ
    have hJ : sitesJ = sitesL.map AppSite.to_dict := by
      simp only [pyIter] at hsitesJ
      exact (Except.ok.inj hsitesJ).symm
    subst hJ
    rw [mapM_from_to_app sitesL] at hsites
    exact (Except.ok.inj hsites).symm
  · intro distsL hjson
    rw [hjson] at hdistsJ
    have hJ : distsJ = distsL.map Distraction.to_dict := by
      simp only [pyIter] at hdistsJ
      exact (Except.ok.inj hdistsJ).symm
    subst hJ
    rw [mapM_from_to_dist distsL] at hdists
    exact (Except.ok.inj hdists).symm

lemma saveCard_cards (st : Store) (card : ActivityCard) (bid : Option Nat) :
    (st.saveCard card bid).1.cards = st.cards ++ [savedCardRow st card bid] := rfl

/-- **C6**: `save_card(c)` followed by `get_cards_for_date(c.start_time)`
returns a card equal to `c` in category, title, summary, productivity
score, and in its app-usage and distraction lists, whenever the query
succeeds at all — the serialization of those fields through the
`timeline_cards` row and back is the identity, and the saved row always
satisfies the date-range filter for its own start day. -/
theorem C6_card_roundtrip (st : Store) (card : ActivityCard)
    (bid : Option Nat) (d : DateTime)
    (hstart : card.start_time = some d) (hv : d.Valid) :
    ∀ res, (st.saveCard card bid).1.getCardsForDate d = .ok res →
      ∃ c2 ∈ res, c2.category = card.category ∧ c2.title = card.title ∧
        c2.summary = card.summary ∧
        c2.productivity_score = card.productivity_score ∧
        c2.app_sites = card.app_sites ∧
        c2.distractions = card.distractions := by
  intro res hres
  obtain ⟨_, _, _, _, _, _, hh, hmi, hs, _⟩ := hv
  set r := savedCardRow st card bid with hr
  have hrstart : r.start_time_text = some (DateTime.iso d) := by
    simp [hr, savedCardRow, hstart]
  have hfilter :
      (match r.start_time_text with
       | some s =>
         lexLe d.startOfDay.isoChars s.data && lexLe s.data d.endOfDay.isoChars
       | none => false) = true := by
    rw [hrstart]
    have hdata : (DateTime.iso d).data = d.isoChars := rfl
    simp only [hdata]
    rw [iso_start_le d, iso_le_end d hh hmi hs]
    rfl
  unfold Store.getCardsForDate at hres
  rw [saveCard_cards] at hres
  have hmemf : r ∈ ((st.cards ++ [savedCardRow st card bid]).filter
      (fun row =>
        match row.start_time_text with
        | some s =>
          lexLe d.startOfDay.isoChars s.data &&
            lexLe s.data d.endOfDay.isoChars
        | none => false)) := by
    refine List.mem_filter.mpr ⟨?_, ?_⟩
    · exact List.mem_append_right _ (by rw [hr]; exact List.mem_singleton_self _)
    · exact hfilter
  have hmems := (mem_insertionSortBy
    (fun a b => optTextLe a.start_time_text b.start_time_text) r _).mpr hmemf
  obtain ⟨y, hy, hrow⟩ := mem_mapM_ok rowToCard _ res hres r hmems
  obtain ⟨h1, h2, h3, h4, h5, h6⟩ := rowToCard_fields r y hrow
  refine ⟨y, hy, ?_, ?_, ?_, ?_, ?_, ?_⟩
  · rw [h1, hr]; rfl
  · rw [h2, hr]; rfl
  · rw [h3, hr]; rfl
  · rw [h4, hr]; rfl
  · exact h5 card.app_sites (by rw [hr]; rfl)
  · exact h6 card.distractions (by rw [hr]; rfl)

/-- Witness for C6: the concrete card `c6card`, saved into an empty store
and queried back by its start date, comes back with all claimed fields
intact. -/
theorem C6_card_roundtrip_witness :
    c6card.start_time = some c6date ∧ c6date.Valid ∧
    (({} : Store).saveCard c6card (some 3)).1.getCardsForDate c6date
      = .ok [c6res] ∧
    ∃ c2 ∈ [c6res], c2.category = c6card.category ∧ c2.title = c6card.title ∧
      c2.summary = c6card.summary ∧
      c2.productivity_score = c6card.productivity_score ∧
      c2.app_sites = c6card.app_sites ∧
      c2.distractions = c6card.distractions :=
  ⟨rfl, by decide, rfl,
   C6_card_roundtrip {} c6card (some 3) c6date rfl (by decide) [c6res] rfl⟩

end Dayflow
